import Mathlib

/-!
Verification development for the `Final_project_auto_purch` marketplace backend.

The relational data model (`src/backend/models.py`) is embedded as lists of rows
inside a `Store` record; Django auto-increment primary keys are modelled by the
single fresh-id counter `nextId` (all that the code observes about primary keys
is that a freshly created row gets an id no existing row has).  The request
handlers and the two catalog importers are embedded as pure functions from a
`Store` to a result together with the updated `Store`.  Django ORM calls are
translated as follows:

* `Model.objects.filter(...)`  — `List.filter` over the corresponding table;
* `Model.objects.get(...)` / `.first()` — `List.find?` (at most one row can
  match when the lookup is by primary key; `.first()` picks the first row,
  standing in for the model's default ordering);
* `Model.objects.get_or_create(...)` — pattern match on the filtered list:
  `[]` creates a row, `[r]` returns it, and two or more matches raise
  `MultipleObjectsReturned` (a plain Python exception);
* `Model.objects.create(...)` — appends a row after checking the declared
  database constraints (`UniqueConstraint`, foreign keys); a violation raises
  `IntegrityError`, a database error;
* `row.save()` after mutating a fetched row — `List.map` replacing the row
  with the matching primary key;
* `queryset.delete()` — `List.filter` dropping the matching rows together
  with the rows that `on_delete=CASCADE` removes.

`ProductInfo` carries `external_id` and `model`: both importers write them and
`ProductInfoSerializer` declares them, so the running model must have them
(the copy of `models.py` in the repository omits the two columns, which the
serializer declaration would reject at startup).

Transaction semantics, which decide several claims, are embedded per call
site:

* `backend_supplier/tasks.py::do_import` runs its database work inside
  `with transaction.atomic():` and its `try/except` sits *outside* the block,
  so every exception propagates out of the block and the writes roll back —
  the wrapper returns the original store on any error;
* `backend/management/commands/import_products.py::Command.import_data` is
  decorated with `@transaction.atomic` but catches its exceptions *inside*
  the decorated body and returns normally.  A plain Python exception
  (`KeyError`, `MultipleObjectsReturned`) caught this way leaves the
  connection clean and the partially-written state is committed when the
  decorator exits without an exception; only a database error
  (`IntegrityError`) marks the transaction `needs_rollback`, so only those
  abort the writes.
-/

namespace AutoPurch

/-- `User` (src/backend/models.py): identity plus the `type` role field.
Profile fields not read by any handler modelled here are elided. -/
structure UserRow where
  id : Nat
  username : String
  type : String
deriving DecidableEq

/-- `Shop` (src/backend/models.py lines 25-41). -/
structure ShopRow where
  id : Nat
  name : String
  userId : Option Nat
  is_active : Bool
deriving DecidableEq

/-- `Category` (src/backend/models.py lines 43-56); `shops` is the
many-to-many link to `Shop`, kept as the list of shop ids. -/
structure CategoryRow where
  id : Nat
  name : String
  shops : List Nat
deriving DecidableEq

/-- `Product` (src/backend/models.py lines 58-72). -/
structure ProductRow where
  id : Nat
  name : String
  categoryId : Nat
deriving DecidableEq

/-- `ProductInfo` (src/backend/models.py lines 74-93) — a shop's listing of a
product, with the unique (product, shop) constraint enforced at create time.
`price` and `price_rrc` are `DecimalField`s, embedded as rationals. -/
structure ProductInfoRow where
  id : Nat
  productId : Nat
  shopId : Nat
  external_id : Nat
  model : String
  quantity : Nat
  price : Rat
  price_rrc : Rat
deriving DecidableEq

/-- `Parameter` (src/backend/models.py lines 95-107). -/
structure ParameterRow where
  id : Nat
  name : String
deriving DecidableEq

/-- `ProductParameter` (src/backend/models.py lines 109-124), with the unique
(product_info, parameter) constraint enforced at create time. -/
structure ProductParameterRow where
  id : Nat
  productInfoId : Nat
  parameterId : Nat
  value : String
deriving DecidableEq

/-- `Contact` (src/backend/models.py lines 126-145). -/
structure ContactRow where
  id : Nat
  userId : Nat
  city : String
  street : String
  house : String
  apartment : String
  phone : String
deriving DecidableEq

/-- `Order` (src/backend/models.py lines 147-173).  `status` draws from
`STATE_CHOISES`; `dt` is not modelled (no claim reads it). -/
structure OrderRow where
  id : Nat
  userId : Nat
  status : String
  contactId : Option Nat
deriving DecidableEq

/-- `OrderItem` (src/backend/models.py lines 175-193), with the unique
(order, product_info) constraint. -/
structure OrderItemRow where
  id : Nat
  orderId : Nat
  productInfoId : Nat
  quantity : Nat
deriving DecidableEq

/-- The relational store: one list per table plus the fresh-id counter. -/
structure Store where
  users : List UserRow
  shops : List ShopRow
  categories : List CategoryRow
  products : List ProductRow
  productInfos : List ProductInfoRow
  parameters : List ParameterRow
  productParameters : List ProductParameterRow
  contacts : List ContactRow
  orders : List OrderRow
  orderItems : List OrderItemRow
  nextId : Nat
deriving DecidableEq

/-- `Order.STATE_CHOISES` keys (src/backend/models.py lines 152-160). -/
def STATE_CHOISES : List String :=
  ["basket", "new", "confirmed", "assembled", "sent", "delivered", "canceled"]

/-- `ProductInfo.objects.all()`-backed existence check used by
`OrderItemCreateSerializer`'s `product_info` primary-key field: the posted id
must name an existing listing (src/backend/serializers.py lines 128-134). -/
def listingExists (st : Store) (pid : Nat) : Bool :=
  st.productInfos.any fun x => decide (x.id = pid)

/-- `Order.objects.filter(user=..., status=basket).first()` — the user's
current basket, if any. -/
def findBasket (st : Store) (uid : Nat) : Option OrderRow :=
  st.orders.find? fun o => decide (o.userId = uid ∧ o.status = "basket")

/-- All `basket`-status orders of a user (the set the singleton invariant is
about). -/
def basketsOf (st : Store) (uid : Nat) : List OrderRow :=
  st.orders.filter fun o => decide (o.userId = uid ∧ o.status = "basket")

/-- `OrderItem` rows of one order that reference one listing (the
get-or-create key used by `BasketView.post`). -/
def itemsFor (st : Store) (orderId pid : Nat) : List OrderItemRow :=
  st.orderItems.filter fun it => decide (it.orderId = orderId ∧ it.productInfoId = pid)

/-- `OrderItem` rows of one order (`order.ordered_items`). -/
def itemsForOrder (st : Store) (orderId : Nat) : List OrderItemRow :=
  st.orderItems.filter fun it => decide (it.orderId = orderId)

/-- Outcome of `BasketView.post`. -/
inductive AddItemResult where
  /-- 201: the item was added (or its quantity incremented). -/
  | created
  /-- 400: serializer errors — the posted `product_info` id names no listing. -/
  | invalidItem
  /-- An unhandled `MultipleObjectsReturned` escaping one of the two
  `get_or_create` calls (no matching `except`, so a 500). -/
  | serverError
deriving DecidableEq

/-- Second half of `BasketView.post` (src/backend/views.py lines 358-366):
`OrderItem.objects.get_or_create(order=basket, product_info=..., defaults
quantity)`, incrementing the quantity when the line already existed. -/
def addItemLine (st : Store) (orderId pid qty : Nat) : AddItemResult × Store :=
  match itemsFor st orderId pid with
  | [] =>
      (.created, { st with
        orderItems := st.orderItems ++
          [{ id := st.nextId, orderId := orderId, productInfoId := pid, quantity := qty }],
        nextId := st.nextId + 1 })
  | [it] =>
      (.created, { st with
        orderItems := st.orderItems.map fun x =>
          if x.id = it.id then { x with quantity := x.quantity + qty } else x })
  | _ => (.serverError, st)

/-- `BasketView.post` (src/backend/views.py lines 333-376): validate the
serializer, `Order.objects.get_or_create(user=..., status=basket)`, then the
line-level get-or-create / increment. -/
def addItem (st : Store) (uid pid qty : Nat) : AddItemResult × Store :=
  if listingExists st pid then
    match basketsOf st uid with
    | [] =>
        addItemLine
          { st with
            orders := st.orders ++
              [{ id := st.nextId, userId := uid, status := "basket", contactId := none }],
            nextId := st.nextId + 1 }
          st.nextId pid qty
    | [b] => addItemLine st b.id pid qty
    | _ => (.serverError, st)
  else (.invalidItem, st)

/-- One iteration of the `BasketView.patch` loop:
`OrderItem.objects.get(id=.., order=basket)`, overwrite its quantity, save;
`DoesNotExist` is swallowed by the `continue`. -/
def patchOne (basketId : Nat) (acc : Store) (iq : Nat × Nat) : Store :=
  match acc.orderItems.find? (fun it => decide (it.id = iq.1 ∧ it.orderId = basketId)) with
  | none => acc
  | some it =>
      { acc with orderItems := acc.orderItems.map fun x =>
          if x.id = it.id then { x with quantity := iq.2 } else x }

/-- `BasketView.patch` (src/backend/views.py lines 378-408): for each posted
(id, quantity) pair, fetch the line of the user's basket by id and overwrite
its quantity; nonexistent lines are silently skipped.  The `Bool` is the
`Status` flag of the response. -/
def basketPatch (st : Store) (uid : Nat) (items : List (Nat × Nat)) : Bool × Store :=
  if items.isEmpty then (false, st)
  else
    match findBasket st uid with
    | none => (false, st)
    | some b => (true, items.foldl (patchOne b.id) st)

/-- `BasketView.delete` (src/backend/views.py lines 410-430): delete the
basket's lines whose ids are listed. -/
def basketDelete (st : Store) (uid : Nat) (ids : List Nat) : Bool × Store :=
  if ids.isEmpty then (false, st)
  else
    match findBasket st uid with
    | none => (false, st)
    | some b =>
        (true, { st with orderItems := st.orderItems.filter fun it =>
            !(decide (it.orderId = b.id) && ids.contains it.id) })

/-- Outcome of `OrderView.post` (checkout). -/
inductive CheckoutResult where
  /-- Order placed; carries `OrderID`. -/
  | ok (orderId : Nat)
  /-- 400: no `contact_id` in the request. -/
  | noContact
  /-- 400 `Корзина пуста`: basket absent or without lines. -/
  | emptyBasket
  /-- 404: `Contact.objects.get(id=..., user=...)` raised `DoesNotExist`. -/
  | contactNotFound
deriving DecidableEq

/-- `OrderView.post` (src/backend/views.py lines 462-510): inside
`transaction.atomic()` fetch the basket, reject if absent or empty, fetch the
contact owned by the caller (404 on `DoesNotExist`), then attach the contact
and set the status to `new`.  Nothing is written before the possible failure
points, so every failure leaves the store unchanged. -/
def checkout (st : Store) (uid : Nat) (contactId : Option Nat) : CheckoutResult × Store :=
  match contactId with
  | none => (.noContact, st)
  | some cid =>
    match findBasket st uid with
    | none => (.emptyBasket, st)
    | some b =>
      if (itemsForOrder st b.id).isEmpty then (.emptyBasket, st)
      else
        match st.contacts.find? (fun c => decide (c.id = cid ∧ c.userId = uid)) with
        | none => (.contactNotFound, st)
        | some c =>
            (.ok b.id, { st with orders := st.orders.map fun o =>
                if o.id = b.id then { o with contactId := some c.id, status := "new" } else o })

/-- Outcome of `OrderStatusView.patch`. -/
inductive StatusResult where
  | ok
  /-- 400: the posted status is not a `STATE_CHOISES` key. -/
  | invalidStatus
  /-- 404: no order with this id owned by the caller. -/
  | notFound
deriving DecidableEq

/-- `OrderStatusView.patch` (src/backend/views.py lines 545-575): fetch the
caller's order by id and accept any value from the status enum — including
`basket` — as the new status. -/
def orderStatusPatch (st : Store) (uid orderId : Nat) (newStatus : String) :
    StatusResult × Store :=
  match st.orders.find? (fun o => decide (o.id = orderId ∧ o.userId = uid)) with
  | none => (.notFound, st)
  | some _ =>
      if STATE_CHOISES.contains newStatus then
        (.ok, { st with orders := st.orders.map fun o =>
            if o.id = orderId then { o with status := newStatus } else o })
      else (.invalidStatus, st)

/-- One `categories` entry of a feed (§6 feed format). -/
structure CategoryEntry where
  id : Nat
  name : String
deriving DecidableEq

/-- One `goods` entry of a feed.  The per-entry keys are embedded as typed
fields; `parameters` is the key/value mapping with values already
stringified.  (A top-level missing key is modelled on `Feed`; missing
per-entry keys raise the same `KeyError` and are not separately modelled.) -/
structure GoodEntry where
  id : Nat
  name : String
  category : Nat
  model : String
  price : Rat
  price_rrc : Rat
  quantity : Nat
  parameters : List (String × String)
deriving DecidableEq

/-- A parsed YAML feed; `none` models a missing top-level key, whose access
raises `KeyError` in both importers. -/
structure Feed where
  categories : Option (List CategoryEntry)
  goods : Option (List GoodEntry)
deriving DecidableEq

/-- The exceptions the importers can raise. -/
inductive ImpErr where
  /-- Python `KeyError` on a missing feed field (names the field). -/
  | keyError (field : String)
  /-- Python `MultipleObjectsReturned` from a `get`/`get_or_create`. -/
  | multipleObjects
  /-- Database `IntegrityError` (unique-constraint or foreign-key violation);
  inside an atomic block this marks the transaction `needs_rollback`. -/
  | dbError
  /-- Python `DoesNotExist` from `Shop.objects.get(id=...)`. -/
  | doesNotExist
deriving DecidableEq

/-- Products matching the `Product.objects.get_or_create(name=..,
category_id=..)` lookup key. -/
def prodMatches (ps : List ProductRow) (name : String) (cat : Nat) : List ProductRow :=
  ps.filter fun p => decide (p.name = name ∧ p.categoryId = cat)

/-- Parameters matching the `Parameter.objects.get_or_create(name=..)` key. -/
def paramMatches (ps : List ParameterRow) (name : String) : List ParameterRow :=
  ps.filter fun p => decide (p.name = name)

/-- `Category.objects.get_or_create(id=entry id, defaults name)` followed by
`category.shops.add(shop)` (both importers, identical code): an existing id
keeps its stored name, a new id is created with the feed name; the shop is
added to the many-to-many set of every row with that id if not yet present. -/
def processCategory (st : Store) (shopId : Nat) (ce : CategoryEntry) : Store :=
  let st1 :=
    if st.categories.any (fun c => decide (c.id = ce.id)) then st
    else { st with categories := st.categories ++ [{ id := ce.id, name := ce.name, shops := [] }] }
  { st1 with categories := st1.categories.map fun c =>
      if c.id = ce.id ∧ ¬ (c.shops.contains shopId) then { c with shops := c.shops ++ [shopId] }
      else c }

/-- The categories loop of both importers. -/
def processCategories (st : Store) (shopId : Nat) (ces : List CategoryEntry) : Store :=
  ces.foldl (fun s e => processCategory s shopId e) st

/-- `Parameter.objects.get_or_create(name=..)`: returns the (possibly
updated) store and the resolved parameter id. -/
def resolveParameter (st : Store) (nm : String) : Option ImpErr × Store × Nat :=
  match paramMatches st.parameters nm with
  | [] => (none,
      { st with
        parameters := st.parameters ++ [{ id := st.nextId, name := nm }],
        nextId := st.nextId + 1 }, st.nextId)
  | [pr] => (none, st, pr.id)
  | _ => (some .multipleObjects, st, 0)

/-- The parameters loop of one goods entry:
`Parameter.objects.get_or_create(name=..)` then
`ProductParameter.objects.create(product_info=.., parameter=.., value=..)`,
the latter checked against the unique (product_info, parameter) constraint.
On an exception the partially-updated store is returned alongside the error
(the caller decides whether the transaction machinery discards it). -/
def createParams : Store → Nat → List (String × String) → Option ImpErr × Store
  | st, _, [] => (none, st)
  | st, infoId, (nm, v) :: rest =>
    match resolveParameter st nm with
    | (some e, st1, _) => (some e, st1)
    | (none, st1, prId) =>
      if st1.productParameters.any (fun pp => decide (pp.productInfoId = infoId ∧ pp.parameterId = prId)) then
        (some .dbError, st1)
      else
        createParams
          { st1 with
            productParameters := st1.productParameters ++
              [{ id := st1.nextId, productInfoId := infoId, parameterId := prId, value := v }],
            nextId := st1.nextId + 1 }
          infoId rest

/-- `Product.objects.get_or_create(name=.., category_id=..)`: an insert
checks the `Category` foreign key; returns the (possibly updated) store and
the resolved product id. -/
def resolveProduct (st : Store) (g : GoodEntry) : Option ImpErr × Store × Nat :=
  match prodMatches st.products g.name g.category with
  | [] =>
      if st.categories.any (fun c => decide (c.id = g.category)) then
        (none,
          { st with
            products := st.products ++
              [{ id := st.nextId, name := g.name, categoryId := g.category }],
            nextId := st.nextId + 1 }, st.nextId)
      else (some .dbError, st, 0)
  | [p] => (none, st, p.id)
  | _ => (some .multipleObjects, st, 0)

/-- One iteration of the goods loop (identical in both importers): resolve
the product, `ProductInfo.objects.create(...)` (checked against the unique
(product, shop) constraint), then the parameters loop. -/
def processGood (st : Store) (shopId : Nat) (g : GoodEntry) : Option ImpErr × Store :=
  match resolveProduct st g with
  | (some e, st1, _) => (some e, st1)
  | (none, st1, prodId) =>
    if st1.productInfos.any (fun x => decide (x.productId = prodId ∧ x.shopId = shopId)) then
      (some .dbError, st1)
    else
      createParams
        { st1 with
          productInfos := st1.productInfos ++
            [{ id := st1.nextId, productId := prodId, shopId := shopId, external_id := g.id,
               model := g.model, quantity := g.quantity, price := g.price, price_rrc := g.price_rrc }],
          nextId := st1.nextId + 1 }
        st1.nextId g.parameters

/-- The goods loop, stopping at the first exception. -/
def processGoods : Store → Nat → List GoodEntry → Option ImpErr × Store
  | st, _, [] => (none, st)
  | st, shopId, g :: rest =>
    match processGood st shopId g with
    | (some e, st1) => (some e, st1)
    | (none, st1) => processGoods st1 shopId rest

/-- `ProductInfo.objects.filter(shop=shop).delete()` — the full-replace
delete, cascading to the listings' `ProductParameter` rows. -/
def deleteShopListings (st : Store) (shopId : Nat) : Store :=
  let deadIds := (st.productInfos.filter fun x => decide (x.shopId = shopId)).map (·.id)
  { st with
    productInfos := st.productInfos.filter fun x => !(decide (x.shopId = shopId)),
    productParameters := st.productParameters.filter fun pp => !(deadIds.contains pp.productInfoId) }

/-- The body of `backend_supplier/tasks.py::do_import` (lines 22-82):
`Shop.objects.get(id=shop_id)`, the categories loop, the full-replace delete,
the goods loop.  Returned alongside any error is the partially-updated store;
the `do_import` wrapper applies the transaction semantics. -/
def doImportCore (st : Store) (shopId : Nat) (feed : Feed) : Option ImpErr × Store :=
  match st.shops.find? (fun s => decide (s.id = shopId)) with
  | none => (some .doesNotExist, st)
  | some _ =>
    match feed.categories with
    | none => (some (.keyError "categories"), st)
    | some ces =>
      let st1 := processCategories st shopId ces
      let st2 := deleteShopListings st1 shopId
      match feed.goods with
      | none => (some (.keyError "goods"), st2)
      | some gs => processGoods st2 shopId gs

/-- `backend_supplier/tasks.py::do_import`: the database work sits inside
`with transaction.atomic():` and the surrounding `try/except` re-raises via
`self.retry`, so every exception rolls the writes back — on error the
original store is returned. -/
def do_import (st : Store) (shopId : Nat) (feed : Feed) : Option ImpErr × Store :=
  match doImportCore st shopId feed with
  | (none, st1) => (none, st1)
  | (some e, _) => (some e, st)

/-- `Shop.objects.get_or_create(name=shop_name, defaults user_id)`: an
insert checks the `User` foreign key when an owner id is supplied; returns
the (possibly updated) store and the resolved shop id. -/
def resolveShop (st : Store) (shopName : String) (userId : Option Nat) :
    Option ImpErr × Store × Nat :=
  match st.shops.filter (fun s => decide (s.name = shopName)) with
  | [] =>
      (match userId with
      | some u =>
          if st.users.any (fun x => decide (x.id = u)) then
            (none,
              { st with
                shops := st.shops ++
                  [{ id := st.nextId, name := shopName, userId := some u, is_active := true }],
                nextId := st.nextId + 1 }, st.nextId)
          else (some .dbError, st, 0)
      | none =>
          (none,
            { st with
              shops := st.shops ++
                [{ id := st.nextId, name := shopName, userId := none, is_active := true }],
              nextId := st.nextId + 1 }, st.nextId))
  | [s] => (none, st, s.id)
  | _ => (some .multipleObjects, st, 0)

/-- The body of `Command.import_data`
(src/backend/management/commands/import_products.py lines 112-184): resolve
the shop by name, then the same categories loop, full-replace delete and
goods loop as `do_import`. -/
def importDataCore (st : Store) (shopName : String) (userId : Option Nat) (feed : Feed) :
    Option ImpErr × Store :=
  match resolveShop st shopName userId with
  | (some e, st1, _) => (some e, st1)
  | (none, st1, shopId) =>
    match feed.categories with
    | none => (some (.keyError "categories"), st1)
    | some ces =>
      let st2 := processCategories st1 shopId ces
      let st3 := deleteShopListings st2 shopId
      match feed.goods with
      | none => (some (.keyError "goods"), st3)
      | some gs => processGoods st3 shopId gs

/-- The structured content of `Command.import_data`'s `(success, message)`
return value. -/
inductive ImportDataMsg where
  /-- `Успешно импортировано для магазина ...` -/
  | success
  /-- `Отсутствует обязательное поле в данных: ...` — names the missing key. -/
  | missingField (f : String)
  /-- `Ошибка импорта: ...` -/
  | importFailed
deriving DecidableEq

/-- `Command.import_data` (src/backend/management/commands/import_products.py
lines 91-190).  The method is decorated `@transaction.atomic` but catches its
exceptions *inside* the decorated body and returns `(False, message)`
normally, so the atomic decorator exits without an exception:

* `KeyError` and any other plain Python exception (`MultipleObjectsReturned`)
  leave the connection clean — the partially-written state COMMITS;
* a database `IntegrityError` sets `needs_rollback`, so only those writes
  are discarded. -/
def import_data (st : Store) (shopName : String) (userId : Option Nat) (feed : Feed) :
    (Bool × ImportDataMsg) × Store :=
  match importDataCore st shopName userId feed with
  | (none, st1) => ((true, .success), st1)
  | (some (.keyError f), st1) => ((false, .missingField f), st1)
  | (some .multipleObjects, st1) => ((false, .importFailed), st1)
  | (some .doesNotExist, st1) => ((false, .importFailed), st1)
  | (some .dbError, _) => ((false, .importFailed), st)

/-- The join filter `OrderItem.objects.filter(order=order,
product_info__shop=shop)` used by both supplier order views: the lines of one
order whose referenced listing belongs to the given shop. -/
def shopLines (st : Store) (orderId shopId : Nat) : List OrderItemRow :=
  st.orderItems.filter fun it =>
    decide (it.orderId = orderId) &&
      st.productInfos.any (fun x => decide (x.id = it.productInfoId ∧ x.shopId = shopId))

/-- `item.product_info.price` — the price of the listing a line references
(0 stands in for the impossible dangling reference; every line produced by
the join filter has its listing present). -/
def listingPrice (st : Store) (infoId : Nat) : Rat :=
  match st.productInfos.find? (fun x => decide (x.id = infoId)) with
  | some x => x.price
  | none => 0

/-- `sum(item.quantity * item.product_info.price for item in supplier_items)`. -/
def linesTotal (st : Store) (lines : List OrderItemRow) : Rat :=
  (lines.map fun it => (it.quantity : Rat) * listingPrice st it.productInfoId).sum

/-- One entry of the `SupplierOrders.get` response
(src/backend_supplier/views.py lines 180-208). -/
structure OrderSummary where
  id : Nat
  status : String
  username : String
  total_amount : Rat
  items_count : Nat
  contactCity : Option String
  contactPhone : Option String
deriving DecidableEq

/-- Outcome of `SupplierOrders.get`. -/
inductive SupplierOrdersResult where
  | ok (entries : List OrderSummary)
  /-- 403: the caller's `type` is not `supplier`. -/
  | forbidden
  /-- 404: the caller owns no shop. -/
  | shopNotFound
deriving DecidableEq

/-- `order.user.username` lookup used by the supplier views. -/
def usernameOf (st : Store) (uid : Nat) : String :=
  match st.users.find? (fun u => decide (u.id = uid)) with
  | some u => u.username
  | none => ""

/-- The per-order summary built by `SupplierOrders.get`: id, status, buyer
username, total over only this shop's lines, count of this shop's lines, and
the contact's city/phone or `None`. -/
def orderSummary (st : Store) (shopId : Nat) (o : OrderRow) : OrderSummary :=
  { id := o.id
    status := o.status
    username := usernameOf st o.userId
    total_amount := linesTotal st (shopLines st o.id shopId)
    items_count := (shopLines st o.id shopId).length
    contactCity := o.contactId.bind fun cid =>
      (st.contacts.find? fun c => decide (c.id = cid)).map (·.city)
    contactPhone := o.contactId.bind fun cid =>
      (st.contacts.find? fun c => decide (c.id = cid)).map (·.phone) }

/-- `SupplierOrders.get` (src/backend_supplier/views.py lines 149-210):
require a supplier caller with a shop, then summarise every non-basket order
that contains at least one of this shop's lines.  (`.distinct().order_by`
only dedups and orders the queryset; the store's list order stands in.) -/
def supplierOrders (st : Store) (uid : Nat) : SupplierOrdersResult :=
  match st.users.find? (fun u => decide (u.id = uid)) with
  | none => .forbidden
  | some u =>
    if u.type ≠ "supplier" then .forbidden
    else
      match st.shops.find? (fun s => decide (s.userId = some uid)) with
      | none => .shopNotFound
      | some s =>
          .ok (((st.orders.filter fun o =>
                  !(decide (o.status = "basket")) && !(shopLines st o.id s.id).isEmpty).map
                (orderSummary st s.id)))

/-- One line of the `SupplierOrderDetail.get` response
(src/backend_supplier/views.py lines 283-301). -/
structure DetailLine where
  id : Nat
  product_name : String
  model : String
  quantity : Nat
  price : Rat
  total : Rat
deriving DecidableEq

/-- The `SupplierOrderDetail.get` response body (buyer-profile and contact
sub-objects, which no claim reads, are elided). -/
structure OrderDetail where
  id : Nat
  status : String
  username : String
  items : List DetailLine
deriving DecidableEq

/-- Outcome of `SupplierOrderDetail.get`. -/
inductive SupplierDetailResult where
  | ok (d : OrderDetail)
  /-- 403: the caller's `type` is not `supplier`. -/
  | forbidden
  /-- 404: the caller owns no shop. -/
  | shopNotFound
  /-- 404: no order with this id. -/
  | orderNotFound
  /-- 404 `Заказ не содержит товаров данного магазина`: the order exists but
  has zero lines from this shop. -/
  | noShopItems
deriving DecidableEq

/-- The per-line projection of `SupplierOrderDetail.get`: product name,
model, quantity, price and `quantity × price`. -/
def detailLine (st : Store) (it : OrderItemRow) : DetailLine :=
  match st.productInfos.find? (fun x => decide (x.id = it.productInfoId)) with
  | some x =>
      { id := it.id
        product_name :=
          match st.products.find? (fun p => decide (p.id = x.productId)) with
          | some p => p.name
          | none => ""
        model := x.model
        quantity := it.quantity
        price := x.price
        total := (it.quantity : Rat) * x.price }
  | none =>
      { id := it.id, product_name := "", model := "", quantity := it.quantity,
        price := 0, total := 0 }

/-- `SupplierOrderDetail.get` (src/backend_supplier/views.py lines 227-314):
require a supplier caller with a shop, fetch the order by id (404 on
`DoesNotExist`), 404 when the order has zero lines from this shop, else
return the detail filtered to this shop's lines. -/
def supplierOrderDetail (st : Store) (uid orderId : Nat) : SupplierDetailResult :=
  match st.users.find? (fun u => decide (u.id = uid)) with
  | none => .forbidden
  | some u =>
    if u.type ≠ "supplier" then .forbidden
    else
      match st.shops.find? (fun s => decide (s.userId = some uid)) with
      | none => .shopNotFound
      | some s =>
        match st.orders.find? (fun o => decide (o.id = orderId)) with
        | none => .orderNotFound
        | some o =>
          if (shopLines st orderId s.id).isEmpty then .noShopItems
          else
            .ok { id := o.id, status := o.status, username := usernameOf st o.userId,
                  items := (shopLines st orderId s.id).map (detailLine st) }

/-- `SupplierState.patch` flag update (src/backend_supplier/views.py lines
456-461) reduced to its effect on one shop row; used to state that the
basket/checkout handlers never read `is_active`. -/
def setShopActive (st : Store) (shopId : Nat) (b : Bool) : Store :=
  { st with shops := st.shops.map fun s =>
      if s.id = shopId then { s with is_active := b } else s }

/-- The invariant of spec §3: at most one `basket`-status order per user. -/
def singletonBasketInv (st : Store) : Prop :=
  ∀ uid : Nat, (basketsOf st uid).length ≤ 1

/-- Primary-key hygiene of the order tables, as the database guarantees it:
ids are below the fresh-id counter and pairwise distinct, and order lines
reference order ids below the counter. -/
def StoreOk (st : Store) : Prop :=
  (∀ o ∈ st.orders, o.id < st.nextId) ∧
  (∀ it ∈ st.orderItems, it.id < st.nextId ∧ it.orderId < st.nextId) ∧
  st.orders.Pairwise (fun a b => a.id ≠ b.id) ∧
  st.orderItems.Pairwise (fun a b => a.id ≠ b.id)

instance (st : Store) : Decidable (StoreOk st) := by
  unfold StoreOk; infer_instance

/-- Primary-key hygiene of the catalog tables. -/
def ImportOk (st : Store) : Prop :=
  (∀ p ∈ st.products, p.id < st.nextId) ∧
  st.products.Pairwise (fun a b => a.id ≠ b.id) ∧
  (∀ x ∈ st.productInfos, x.id < st.nextId) ∧
  (∀ pr ∈ st.parameters, pr.id < st.nextId) ∧
  st.parameters.Pairwise (fun a b => a.id ≠ b.id) ∧
  (∀ pp ∈ st.productParameters, pp.productInfoId < st.nextId)

instance (st : Store) : Decidable (ImportOk st) := by
  unfold ImportOk; infer_instance

/-- One buyer-facing mutation of the store, with status updates restricted to
values other than `basket` (the restriction the singleton-basket invariant
needs; the unrestricted `orderStatusPatch` can reinstate a basket). -/
inductive SafeStep : Store → Store → Prop where
  | add (st : Store) (uid pid qty : Nat) : SafeStep st (addItem st uid pid qty).2
  | patchLines (st : Store) (uid : Nat) (items : List (Nat × Nat)) :
      SafeStep st (basketPatch st uid items).2
  | deleteLines (st : Store) (uid : Nat) (ids : List Nat) :
      SafeStep st (basketDelete st uid ids).2
  | doCheckout (st : Store) (uid : Nat) (cid : Option Nat) :
      SafeStep st (checkout st uid cid).2
  | statusUpdate (st : Store) (uid oid : Nat) (ns : String) (h : ns ≠ "basket") :
      SafeStep st (orderStatusPatch st uid oid ns).2

/-- Reachability by any sequence of `SafeStep`s. -/
def ReachSafe : Store → Store → Prop :=
  Relation.ReflTransGen SafeStep

/-- The listing data the full-replace import determines for a shop: every
`ProductInfo` row of the shop, projected to its content (the auto-increment
row id, which differs between runs, is dropped). -/
structure ListingProj where
  productId : Nat
  external_id : Nat
  model : String
  quantity : Nat
  price : Rat
  price_rrc : Rat
deriving DecidableEq

/-- Projection of one listing row. -/
def projInfo (x : ProductInfoRow) : ListingProj :=
  { productId := x.productId, external_id := x.external_id, model := x.model,
    quantity := x.quantity, price := x.price, price_rrc := x.price_rrc }

/-- A shop's listings, projected. -/
def shopListingsProj (st : Store) (shopId : Nat) : List ListingProj :=
  (st.productInfos.filter fun x => decide (x.shopId = shopId)).map projInfo

/-- A small populated store: a buyer with a contact, two suppliers with one
active shop and one listing each. -/
def baseStore : Store :=
  { users := [{ id := 1, username := "alice", type := "buyer" },
              { id := 2, username := "bob", type := "supplier" },
              { id := 3, username := "carol", type := "supplier" }]
    shops := [{ id := 10, name := "acme", userId := some 2, is_active := true },
              { id := 11, name := "globex", userId := some 3, is_active := true }]
    categories := [{ id := 1, name := "phones", shops := [10, 11] }]
    products := [{ id := 20, name := "x1", categoryId := 1 },
                 { id := 21, name := "y1", categoryId := 1 }]
    productInfos :=
      [{ id := 30, productId := 20, shopId := 10, external_id := 101, model := "m1",
         quantity := 5, price := 100, price_rrc := 120 },
       { id := 31, productId := 21, shopId := 11, external_id := 202, model := "m2",
         quantity := 7, price := 50, price_rrc := 60 }]
    parameters := []
    productParameters := []
    contacts := [{ id := 40, userId := 1, city := "c", street := "s", house := "h",
                   apartment := "a", phone := "p" }]
    orders := []
    orderItems := []
    nextId := 50 }

/-- `baseStore` with shop 10 switched to `is_active = false`. -/
def inactiveStore : Store :=
  setShopActive baseStore 10 false

/-- `baseStore` with two placed (non-basket) orders of the buyer: order 60
holds a line from each shop, order 63 holds a line only from shop 11. -/
def orderStore : Store :=
  { baseStore with
    orders := [{ id := 60, userId := 1, status := "new", contactId := some 40 },
               { id := 63, userId := 1, status := "new", contactId := some 40 }]
    orderItems := [{ id := 61, orderId := 60, productInfoId := 30, quantity := 2 },
                   { id := 62, orderId := 60, productInfoId := 31, quantity := 3 },
                   { id := 64, orderId := 63, productInfoId := 31, quantity := 4 }]
    nextId := 70 }

/-- A feed whose top-level `goods` key is missing. -/
def feedNoGoods : Feed :=
  { categories := some [{ id := 1, name := "phones" }], goods := none }

/-- A feed with two goods entries resolving to the same (product, shop)
pair — same `name` and `category`, different prices. -/
def feedDup : Feed :=
  { categories := some [{ id := 1, name := "phones" }]
    goods := some
      [{ id := 101, name := "x1", category := 1, model := "m1", price := 100,
         price_rrc := 120, quantity := 5, parameters := [] },
       { id := 102, name := "x1", category := 1, model := "m1b", price := 90,
         price_rrc := 110, quantity := 3, parameters := [] }] }

/-- A well-formed feed used by the witnesses. -/
def feedGood : Feed :=
  { categories := some [{ id := 1, name := "phones" }]
    goods := some
      [{ id := 101, name := "x1", category := 1, model := "m1", price := 100,
         price_rrc := 120, quantity := 5, parameters := [("color", "black")] },
       { id := 102, name := "z9", category := 1, model := "m9", price := 10,
         price_rrc := 12, quantity := 2, parameters := [("color", "red")] }] }

/-! ## Generic helper lemmas -/

theorem basketsOf_length (st : Store) (uid : Nat) :
    (basketsOf st uid).length =
      st.orders.countP (fun o => decide (o.userId = uid ∧ o.status = "basket")) := by
  simp [basketsOf, List.countP_eq_length_filter]

theorem countP_map_update_le {α : Type} (l : List α) (g : α → α) (p : α → Bool)
    (hg : ∀ o, p (g o) = true → p o = true) :
    (l.map g).countP p ≤ l.countP p := by
  rw [List.countP_map]
  exact List.countP_mono_left fun o _ h => hg o h

/-! ## Claim C2: singleton-basket invariant machinery -/

theorem addItemLine_orders (st : Store) (oid pid qty : Nat) :
    ((addItemLine st oid pid qty).2).orders = st.orders := by
  unfold addItemLine
  split <;> rfl

theorem addItem_orders (st : Store) (uid pid qty : Nat) :
    ((addItem st uid pid qty).2).orders = st.orders ∨
    (basketsOf st uid = [] ∧ ((addItem st uid pid qty).2).orders =
      st.orders ++ [{ id := st.nextId, userId := uid, status := "basket", contactId := none }]) := by
  unfold addItem
  split
  · split
    · next heq => right; exact ⟨heq, by rw [addItemLine_orders]⟩
    · left; rw [addItemLine_orders]
    · left; rfl
  · left; rfl

theorem addItem_preserves_inv (st : Store) (uid pid qty : Nat)
    (h : singletonBasketInv st) : singletonBasketInv (addItem st uid pid qty).2 := by
  rcases addItem_orders st uid pid qty with ho | ⟨hb, ho⟩
  · intro u
    have := h u
    unfold basketsOf at *
    rw [ho]
    exact this
  · intro u
    unfold basketsOf at hb ⊢
    rw [ho, List.filter_append]
    by_cases hu : u = uid
    · subst hu
      rw [hb]
      simp [List.filter]
    · have hone : (List.filter (fun o => decide (o.userId = u ∧ o.status = "basket"))
          [({ id := st.nextId, userId := uid, status := "basket", contactId := none } : OrderRow)])
          = [] := by
        simp [List.filter, Ne.symm hu]
      rw [hone, List.append_nil]
      exact h u

theorem patchOne_orders (bid : Nat) (acc : Store) (iq : Nat × Nat) :
    (patchOne bid acc iq).orders = acc.orders := by
  unfold patchOne
  split <;> rfl

theorem foldl_patchOne_orders (bid : Nat) (items : List (Nat × Nat)) : ∀ acc : Store,
    (items.foldl (patchOne bid) acc).orders = acc.orders := by
  induction items with
  | nil => intro acc; rfl
  | cons i rest ih => intro acc; rw [List.foldl_cons, ih, patchOne_orders]

theorem basketPatch_orders (st : Store) (uid : Nat) (items : List (Nat × Nat)) :
    ((basketPatch st uid items).2).orders = st.orders := by
  unfold basketPatch
  split
  · rfl
  · split
    · rfl
    · exact foldl_patchOne_orders _ _ _

theorem basketDelete_orders (st : Store) (uid : Nat) (ids : List Nat) :
    ((basketDelete st uid ids).2).orders = st.orders := by
  unfold basketDelete
  split
  · rfl
  · split <;> rfl

theorem checkout_baskets_le (st : Store) (uid : Nat) (cid : Option Nat) (u : Nat) :
    (basketsOf (checkout st uid cid).2 u).length ≤ (basketsOf st u).length := by
  unfold checkout
  split
  · exact le_refl _
  · split
    · exact le_refl _
    · split
      · exact le_refl _
      · split
        · exact le_refl _
        · rename_i b hfind hne x c hc
          rw [basketsOf_length, basketsOf_length]
          apply countP_map_update_le
          intro o hp
          by_cases ho : o.id = b.id
          · rw [if_pos ho] at hp
            exact absurd (show ("new" : String) = "basket" from (of_decide_eq_true hp).2)
              (by decide)
          · rwa [if_neg ho] at hp

theorem checkout_preserves_inv (st : Store) (uid : Nat) (cid : Option Nat)
    (h : singletonBasketInv st) : singletonBasketInv (checkout st uid cid).2 :=
  fun u => le_trans (checkout_baskets_le st uid cid u) (h u)

theorem statusPatch_baskets_le (st : Store) (uid oid : Nat) (ns : String) (hns : ns ≠ "basket")
    (u : Nat) :
    (basketsOf (orderStatusPatch st uid oid ns).2 u).length ≤ (basketsOf st u).length := by
  unfold orderStatusPatch
  split
  · exact le_refl _
  · split
    · rw [basketsOf_length, basketsOf_length]
      apply countP_map_update_le
      intro o hp
      by_cases ho : o.id = oid
      · rw [if_pos ho] at hp
        exact absurd (of_decide_eq_true hp).2 hns
      · rwa [if_neg ho] at hp
    · exact le_refl _

theorem safeStep_preserves_inv {st st' : Store} (h : SafeStep st st')
    (hinv : singletonBasketInv st) : singletonBasketInv st' := by
  cases h with
  | add uid pid qty => exact addItem_preserves_inv st uid pid qty hinv
  | patchLines uid items =>
      intro u
      have := hinv u
      unfold basketsOf at *
      rw [basketPatch_orders]
      exact this
  | deleteLines uid ids =>
      intro u
      have := hinv u
      unfold basketsOf at *
      rw [basketDelete_orders]
      exact this
  | doCheckout uid cid => exact checkout_preserves_inv st uid cid hinv
  | statusUpdate uid oid ns hns =>
      exact fun u => le_trans (statusPatch_baskets_le st uid oid ns hns u) (hinv u)

/-- C2 (amended): at most one `basket`-status order per user is an invariant
of every sequence of add-to-basket, basket update, basket delete, checkout,
and status-update operations whose new status is not `basket`; the
unrestricted status update (which accepts `basket`, see the counterexample)
is the one operation of the claimed set that can break it. -/
theorem basket_singleton_reachable {st st' : Store} (hinv : singletonBasketInv st)
    (h : ReachSafe st st') : singletonBasketInv st' := by
  induction h with
  | refl => exact hinv
  | tail _ hstep ih => exact safeStep_preserves_inv hstep ih

/-- Witness for `basket_singleton_reachable`: a concrete safe run from
`baseStore` keeps the invariant. -/
theorem basket_singleton_reachable_witness :
    singletonBasketInv (addItem baseStore 1 30 2).2 :=
  basket_singleton_reachable
    (by intro uid; simp [singletonBasketInv, basketsOf, baseStore])
    (Relation.ReflTransGen.single (SafeStep.add baseStore 1 30 2))

/-- C2 counterexample: the claimed reachable-state set includes status
updates, and `OrderStatusView.patch` accepts `basket` as a new status; after
add-to-basket, checkout, a second add-to-basket and a status patch back to
`basket`, user 1 owns two `basket`-status orders. -/
theorem basket_singleton_counterexample :
    (basketsOf
      (orderStatusPatch
        (addItem (checkout (addItem baseStore 1 30 2).2 1 (some 40)).2 1 30 1).2
        1 50 "basket").2
      1).length = 2 := by decide

/-! ## Frame lemmas: the basket/order handlers never touch the catalog -/

theorem addItemLine_productInfos (st : Store) (oid pid qty : Nat) :
    ((addItemLine st oid pid qty).2).productInfos = st.productInfos := by
  unfold addItemLine
  split <;> rfl

theorem addItem_productInfos (st : Store) (uid pid qty : Nat) :
    ((addItem st uid pid qty).2).productInfos = st.productInfos := by
  unfold addItem
  split
  · split
    · rw [addItemLine_productInfos]
    · rw [addItemLine_productInfos]
    · rfl
  · rfl

theorem patchOne_productInfos (bid : Nat) (acc : Store) (iq : Nat × Nat) :
    (patchOne bid acc iq).productInfos = acc.productInfos := by
  unfold patchOne
  split <;> rfl

theorem basketPatch_productInfos (st : Store) (uid : Nat) (items : List (Nat × Nat)) :
    ((basketPatch st uid items).2).productInfos = st.productInfos := by
  unfold basketPatch
  split
  · rfl
  · split
    · rfl
    · rename_i b hb
      have : ∀ (l : List (Nat × Nat)) (acc : Store),
          (l.foldl (patchOne b.id) acc).productInfos = acc.productInfos := by
        intro l
        induction l with
        | nil => intro acc; rfl
        | cons i rest ih => intro acc; rw [List.foldl_cons, ih, patchOne_productInfos]
      exact this items st

theorem basketDelete_productInfos (st : Store) (uid : Nat) (ids : List Nat) :
    ((basketDelete st uid ids).2).productInfos = st.productInfos := by
  unfold basketDelete
  split
  · rfl
  · split <;> rfl

theorem checkout_productInfos (st : Store) (uid : Nat) (cid : Option Nat) :
    ((checkout st uid cid).2).productInfos = st.productInfos := by
  unfold checkout
  split
  · rfl
  · split
    · rfl
    · split
      · rfl
      · split <;> rfl

theorem orderStatusPatch_productInfos (st : Store) (uid oid : Nat) (ns : String) :
    ((orderStatusPatch st uid oid ns).2).productInfos = st.productInfos := by
  unfold orderStatusPatch
  split
  · rfl
  · split <;> rfl

/-! ## Claim C10: no stock consultation or reservation -/

theorem filter_orderId_fresh (l : List OrderItemRow) (n pid : Nat)
    (h : ∀ it ∈ l, it.orderId < n) :
    l.filter (fun it => decide (it.orderId = n ∧ it.productInfoId = pid)) = [] := by
  rw [List.filter_eq_nil_iff]
  intro a ha
  have := h a ha
  simp only [decide_eq_true_eq]
  rintro ⟨h1, -⟩
  omega

theorem itemsFor_fresh (st : Store) (pid : Nat) (hok : StoreOk st) :
    itemsFor st st.nextId pid = [] := by
  unfold itemsFor
  exact filter_orderId_fresh _ _ _ fun it hit => (hok.2.1 it hit).2

theorem addItem_created (st : Store) (uid pid qty : Nat)
    (hex : listingExists st pid = true) (hok : StoreOk st)
    (h1 : (basketsOf st uid).length ≤ 1)
    (h2 : ∀ b ∈ basketsOf st uid, (itemsFor st b.id pid).length ≤ 1) :
    (addItem st uid pid qty).1 = .created := by
  unfold addItem
  rw [if_pos hex]
  split
  · -- no basket: a fresh order id is used, which no line can reference
    unfold addItemLine
    have hfresh : itemsFor
        { st with
          orders := st.orders ++
            [{ id := st.nextId, userId := uid, status := "basket", contactId := none }],
          nextId := st.nextId + 1 } st.nextId pid = [] := by
      unfold itemsFor
      exact filter_orderId_fresh _ _ _ fun it hit => (hok.2.1 it hit).2
    rw [hfresh]
  · -- one basket: at most one line matches the key
    rename_i b hb
    have hle := h2 b (by rw [hb]; simp)
    unfold addItemLine
    rcases hl : itemsFor st b.id pid with - | ⟨a, - | ⟨a2, t2⟩⟩
    · rfl
    · rfl
    · rw [hl] at hle
      simp at hle
  · -- two or more baskets contradict the hypothesis
    rename_i hnil hone
    rcases hcase : basketsOf st uid with - | ⟨c, - | ⟨c2, t⟩⟩
    · exact absurd hcase hnil
    · exact absurd (hone c hcase) (fun f => f)
    · rw [hcase] at h1
      simp at h1

/-- C10: stock is never consulted or reserved by the basket/order handlers.
Add-to-basket succeeds for any requested quantity (in particular one
exceeding the listing's stored `quantity`), and none of add-to-basket,
basket patch, basket delete, checkout, or status update modifies any
`ProductInfo` row — `ProductInfo.quantity` changes only through import. -/
theorem basket_checkout_never_touch_stock (st : Store) (uid pid qty : Nat)
    (hex : listingExists st pid = true) (hok : StoreOk st)
    (h1 : (basketsOf st uid).length ≤ 1)
    (h2 : ∀ b ∈ basketsOf st uid, (itemsFor st b.id pid).length ≤ 1) :
    (addItem st uid pid qty).1 = .created ∧
    (∀ u p q, ((addItem st u p q).2).productInfos = st.productInfos) ∧
    (∀ u its, ((basketPatch st u its).2).productInfos = st.productInfos) ∧
    (∀ u ids, ((basketDelete st u ids).2).productInfos = st.productInfos) ∧
    (∀ u c, ((checkout st u c).2).productInfos = st.productInfos) ∧
    (∀ u o ns, ((orderStatusPatch st u o ns).2).productInfos = st.productInfos) :=
  ⟨addItem_created st uid pid qty hex hok h1 h2,
   fun u p q => addItem_productInfos st u p q,
   fun u its => basketPatch_productInfos st u its,
   fun u ids => basketDelete_productInfos st u ids,
   fun u c => checkout_productInfos st u c,
   fun u o ns => orderStatusPatch_productInfos st u o ns⟩

/-- Witness for `basket_checkout_never_touch_stock`: listing 30 has stock 5,
yet adding quantity 999 succeeds. -/
theorem basket_checkout_never_touch_stock_witness :
    (addItem baseStore 1 30 999).1 = .created ∧
    (∀ u p q, ((addItem baseStore u p q).2).productInfos = baseStore.productInfos) ∧
    (∀ u its, ((basketPatch baseStore u its).2).productInfos = baseStore.productInfos) ∧
    (∀ u ids, ((basketDelete baseStore u ids).2).productInfos = baseStore.productInfos) ∧
    (∀ u c, ((checkout baseStore u c).2).productInfos = baseStore.productInfos) ∧
    (∀ u o ns, ((orderStatusPatch baseStore u o ns).2).productInfos = baseStore.productInfos) :=
  basket_checkout_never_touch_stock baseStore 1 30 999 (by decide) (by decide)
    (by simp [basketsOf, baseStore]) (by simp [basketsOf, baseStore])

/-! ## Claim C4: `is_active` does not gate order creation -/

theorem addItem_shops (st : Store) (uid pid qty : Nat) :
    ((addItem st uid pid qty).2).shops = st.shops := by
  unfold addItem addItemLine
  split
  · split
    · split <;> rfl
    · split <;> rfl
    · rfl
  · rfl

theorem checkout_shops (st : Store) (uid : Nat) (cid : Option Nat) :
    ((checkout st uid cid).2).shops = st.shops := by
  unfold checkout
  split
  · rfl
  · split
    · rfl
    · split
      · rfl
      · split <;> rfl

theorem addItem_shops_irrelevant (st : Store) (s2 : List ShopRow) (uid pid qty : Nat) :
    addItem { st with shops := s2 } uid pid qty =
      ((addItem st uid pid qty).1, { (addItem st uid pid qty).2 with shops := s2 }) := by
  cases st
  unfold addItem addItemLine listingExists basketsOf itemsFor
  dsimp only
  split
  · split
    · split <;> rfl
    · split <;> rfl
    · rfl
  · rfl

theorem checkout_shops_irrelevant (st : Store) (s2 : List ShopRow) (uid : Nat)
    (cid : Option Nat) :
    checkout { st with shops := s2 } uid cid =
      ((checkout st uid cid).1, { (checkout st uid cid).2 with shops := s2 }) := by
  cases st
  unfold checkout findBasket itemsForOrder
  dsimp only
  split
  · rfl
  · split
    · rfl
    · split
      · rfl
      · split <;> rfl

/-- C4 (amended): the `is_active` flag gates nothing in order creation —
both add-to-basket and checkout compute the same result and the same store
(up to the flag change itself) whether the shop is active or not, so an
order can leave basket state holding a line of an inactive shop.  The flag
is only read by the shop-list endpoint and the supplier statistics. -/
theorem is_active_not_consulted (st : Store) (sid : Nat) (b : Bool) (uid pid qty : Nat)
    (cid : Option Nat) :
    (addItem (setShopActive st sid b) uid pid qty).1 = (addItem st uid pid qty).1 ∧
    (addItem (setShopActive st sid b) uid pid qty).2 =
      setShopActive (addItem st uid pid qty).2 sid b ∧
    (checkout (setShopActive st sid b) uid cid).1 = (checkout st uid cid).1 ∧
    (checkout (setShopActive st sid b) uid cid).2 =
      setShopActive (checkout st uid cid).2 sid b := by
  unfold setShopActive
  rw [addItem_shops_irrelevant st _ uid pid qty, checkout_shops_irrelevant st _ uid cid,
    addItem_shops, checkout_shops]
  exact ⟨rfl, rfl, rfl, rfl⟩

/-- C4 counterexample: in `inactiveStore` shop 10 has `is_active = false`
and listing 30 belongs to it, yet add-to-basket accepts the listing and
checkout turns the basket into a `new` order containing that line — an
order left basket state with a line from an inactive shop. -/
theorem is_active_gate_counterexample :
    (checkout (addItem inactiveStore 1 30 2).2 1 (some 40)).1 = .ok 50 ∧
    ((((checkout (addItem inactiveStore 1 30 2).2 1 (some 40)).2).orders.find?
        (fun o => decide (o.id = 50))).map (·.status)) = some "new" ∧
    ((itemsFor (checkout (addItem inactiveStore 1 30 2).2 1 (some 40)).2 50 30).map
        (·.productInfoId)) = [30] ∧
    ((inactiveStore.productInfos.find? (fun x => decide (x.id = 30))).map (·.shopId)) = some 10 ∧
    ((inactiveStore.shops.find? (fun s => decide (s.id = 10))).map (·.is_active)) = some false := by
  decide

/-! ## Claim C5: quantity accumulation -/

theorem map_update_fresh (l : List OrderItemRow) (i q : Nat) (h : ∀ x ∈ l, x.id ≠ i) :
    (l.map fun x => if x.id = i then { x with quantity := x.quantity + q } else x) = l := by
  have hc : ∀ x ∈ l, (if x.id = i then { x with quantity := x.quantity + q } else x) = x := by
    intro x hx
    rw [if_neg (h x hx)]
  rw [List.map_congr_left hc]
  exact List.map_id' l

theorem filter_basket_cons_self (l : List OrderRow) (uid : Nat) (o : OrderRow)
    (ho : o.userId = uid) (hs : o.status = "basket") :
    (l ++ [o]).filter (fun x => decide (x.userId = uid ∧ x.status = "basket")) =
      l.filter (fun x => decide (x.userId = uid ∧ x.status = "basket")) ++ [o] := by
  rw [List.filter_append]
  congr 1
  simp [ho, hs]

theorem quantity_update_pred (i q oid pid : Nat) :
    ((fun it : OrderItemRow => decide (it.orderId = oid ∧ it.productInfoId = pid)) ∘
      (fun x => if x.id = i then { x with quantity := x.quantity + q } else x)) =
    (fun it : OrderItemRow => decide (it.orderId = oid ∧ it.productInfoId = pid)) := by
  funext x
  by_cases hx : x.id = i
  · simp only [Function.comp_apply, if_pos hx]
  · simp only [Function.comp_apply, if_neg hx]

/-- A second add of the same listing on a store whose basket and line are
already in place increments the line's quantity and changes nothing else
observable here. -/
theorem addItem_second (s : Store) (uid pid q2 : Nat) (b : OrderRow) (it : OrderItemRow)
    (hex2 : listingExists s pid = true)
    (hb : basketsOf s uid = [b])
    (hit : itemsFor s b.id pid = [it]) :
    basketsOf (addItem s uid pid q2).2 uid = [b] ∧
    ((itemsFor (addItem s uid pid q2).2 b.id pid).map (·.quantity)) = [it.quantity + q2] := by
  unfold addItem
  rw [if_pos hex2, hb]
  dsimp only
  unfold addItemLine
  rw [hit]
  dsimp only
  constructor
  · exact hb
  · unfold itemsFor at hit ⊢
    dsimp only
    rw [List.filter_map, quantity_update_pred, hit]
    simp

/-- C5: adding the same listing to the basket twice, with quantities `q1`
and `q2`, leaves exactly one order line for the (order, listing) pair and
its quantity is `q1 + q2` — no second row, no overwrite with `q2`. -/
theorem quantity_accumulation (st : Store) (uid pid q1 q2 : Nat)
    (hex : listingExists st pid = true) (hok : StoreOk st)
    (hbask : basketsOf st uid = [] ∨
      ∃ b, basketsOf st uid = [b] ∧ itemsFor st b.id pid = []) :
    ∃ b : OrderRow,
      basketsOf (addItem (addItem st uid pid q1).2 uid pid q2).2 uid = [b] ∧
      ((itemsFor (addItem (addItem st uid pid q1).2 uid pid q2).2 b.id pid).map
        (·.quantity)) = [q1 + q2] := by
  have hidlt : ∀ x ∈ st.orderItems, x.id < st.nextId := fun x hx => (hok.2.1 x hx).1
  have holt : ∀ x ∈ st.orderItems, x.orderId < st.nextId := fun x hx => (hok.2.1 x hx).2
  rcases hbask with hA | ⟨b, hB, hBempty⟩
  · -- no basket yet: the first add creates order st.nextId and line st.nextId+1
    have hs1 : (addItem st uid pid q1).2 =
        { st with
          orders := st.orders ++
            [{ id := st.nextId, userId := uid, status := "basket", contactId := none }],
          orderItems := st.orderItems ++
            [{ id := st.nextId + 1, orderId := st.nextId, productInfoId := pid, quantity := q1 }],
          nextId := st.nextId + 2 } := by
      unfold addItem
      rw [if_pos hex, hA]
      unfold addItemLine
      have hfresh : itemsFor
          { st with
            orders := st.orders ++
              [{ id := st.nextId, userId := uid, status := "basket", contactId := none }],
            nextId := st.nextId + 1 } st.nextId pid = [] := by
        unfold itemsFor
        exact filter_orderId_fresh _ _ _ holt
      rw [hfresh]
    rw [hs1]
    -- the second add finds the created basket and the created line
    have hbask1 : basketsOf
        { st with
          orders := st.orders ++
            [{ id := st.nextId, userId := uid, status := "basket", contactId := none }],
          orderItems := st.orderItems ++
            [{ id := st.nextId + 1, orderId := st.nextId, productInfoId := pid, quantity := q1 }],
          nextId := st.nextId + 2 } uid =
        [{ id := st.nextId, userId := uid, status := "basket", contactId := none }] := by
      unfold basketsOf at hA ⊢
      dsimp only
      rw [filter_basket_cons_self st.orders uid
        { id := st.nextId, userId := uid, status := "basket", contactId := none } rfl rfl, hA]
      rfl
    have hitems1 : itemsFor
        { st with
          orders := st.orders ++
            [{ id := st.nextId, userId := uid, status := "basket", contactId := none }],
          orderItems := st.orderItems ++
            [{ id := st.nextId + 1, orderId := st.nextId, productInfoId := pid, quantity := q1 }],
          nextId := st.nextId + 2 } st.nextId pid =
        [{ id := st.nextId + 1, orderId := st.nextId, productInfoId := pid, quantity := q1 }] := by
      unfold itemsFor
      dsimp only
      rw [List.filter_append, filter_orderId_fresh _ _ _ holt]
      simp
    have hsecond := addItem_second _ uid pid q2
      { id := st.nextId, userId := uid, status := "basket", contactId := none }
      { id := st.nextId + 1, orderId := st.nextId, productInfoId := pid, quantity := q1 }
      (by exact hex) hbask1 hitems1
    exact ⟨_, hsecond.1, hsecond.2⟩
  · -- an existing basket without a line for this listing
    have hs1 : (addItem st uid pid q1).2 =
        { st with
          orderItems := st.orderItems ++
            [{ id := st.nextId, orderId := b.id, productInfoId := pid, quantity := q1 }],
          nextId := st.nextId + 1 } := by
      unfold addItem
      rw [if_pos hex, hB]
      dsimp only
      unfold addItemLine
      rw [hBempty]
    rw [hs1]
    have hbask1 : basketsOf
        { st with
          orderItems := st.orderItems ++
            [{ id := st.nextId, orderId := b.id, productInfoId := pid, quantity := q1 }],
          nextId := st.nextId + 1 } uid = [b] := hB
    have hitems1 : itemsFor
        { st with
          orderItems := st.orderItems ++
            [{ id := st.nextId, orderId := b.id, productInfoId := pid, quantity := q1 }],
          nextId := st.nextId + 1 } b.id pid =
        [{ id := st.nextId, orderId := b.id, productInfoId := pid, quantity := q1 }] := by
      unfold itemsFor
      unfold itemsFor at hBempty
      dsimp only
      rw [List.filter_append, hBempty]
      simp
    have hsecond := addItem_second _ uid pid q2 b
      { id := st.nextId, orderId := b.id, productInfoId := pid, quantity := q1 }
      (by exact hex) hbask1 hitems1
    exact ⟨b, hsecond.1, hsecond.2⟩

/-- Witness for `quantity_accumulation`: adding listing 30 with quantities 2
then 3 yields one line of quantity 5. -/
theorem quantity_accumulation_witness :
    ∃ b : OrderRow,
      basketsOf (addItem (addItem baseStore 1 30 2).2 1 30 3).2 1 = [b] ∧
      ((itemsFor (addItem (addItem baseStore 1 30 2).2 1 30 3).2 b.id 30).map
        (·.quantity)) = [2 + 3] :=
  quantity_accumulation baseStore 1 30 2 3 (by decide) (by decide)
    (Or.inl (by simp [basketsOf, baseStore]))

/-! ## Claim C6: the checkout contract -/

theorem find?_id_unique (l : List OrderRow) (b : OrderRow) (hmem : b ∈ l)
    (hpw : l.Pairwise (fun a c => a.id ≠ c.id)) :
    l.find? (fun x => decide (x.id = b.id)) = some b := by
  induction l with
  | nil => cases hmem
  | cons a t ih =>
    rcases List.mem_cons.mp hmem with rfl | hmem2
    · rw [List.find?_cons]
      simp
    · rw [List.find?_cons]
      have hne : a.id ≠ b.id := (List.pairwise_cons.mp hpw).1 b hmem2
      rw [decide_eq_false hne]
      exact ih hmem2 (List.pairwise_cons.mp hpw).2

theorem checkout_update_id_pred (bid : Nat) (cid2 : Nat) :
    ((fun x : OrderRow => decide (x.id = bid)) ∘
      (fun o => if o.id = bid then { o with contactId := some cid2, status := "new" } else o)) =
    (fun x : OrderRow => decide (x.id = bid)) := by
  funext x
  by_cases hx : x.id = bid
  · simp only [Function.comp_apply, if_pos hx]
  · simp only [Function.comp_apply, if_neg hx]

theorem baskets_after_checkout (l : List OrderRow) (bid uid cid2 : Nat)
    (h : ∀ x ∈ l, decide (x.userId = uid ∧ x.status = "basket") = true → x.id = bid) :
    (l.map fun o => if o.id = bid then { o with contactId := some cid2, status := "new" } else o).filter
      (fun o => decide (o.userId = uid ∧ o.status = "basket")) = [] := by
  rw [List.filter_eq_nil_iff]
  intro y hy
  rcases List.mem_map.mp hy with ⟨x, hx, rfl⟩
  by_cases hid : x.id = bid
  · rw [if_pos hid]
    simp
  · rw [if_neg hid]
    intro hp
    exact hid (h x hx (by simpa using hp))

/-- C6: checkout with a present contact id fails (leaving the whole store
unchanged) when the basket is absent, when it has no lines, and when the
contact id is not owned by the caller; otherwise it reports the order id,
sets the order's status to `new` and attaches the contact, and a subsequent
add-to-basket creates a brand-new basket order. -/
theorem checkout_contract (st : Store) (uid cid : Nat) (hok : StoreOk st) :
    (findBasket st uid = none → checkout st uid (some cid) = (.emptyBasket, st)) ∧
    (∀ b, findBasket st uid = some b → itemsForOrder st b.id = [] →
      checkout st uid (some cid) = (.emptyBasket, st)) ∧
    (∀ b, findBasket st uid = some b → itemsForOrder st b.id ≠ [] →
      st.contacts.find? (fun c => decide (c.id = cid ∧ c.userId = uid)) = none →
      checkout st uid (some cid) = (.contactNotFound, st)) ∧
    (∀ b c, findBasket st uid = some b → itemsForOrder st b.id ≠ [] →
      st.contacts.find? (fun c => decide (c.id = cid ∧ c.userId = uid)) = some c →
      (checkout st uid (some cid)).1 = .ok b.id ∧
      (∃ o, (((checkout st uid (some cid)).2).orders.find?
          (fun x => decide (x.id = b.id))) = some o ∧
        o.status = "new" ∧ o.contactId = some c.id) ∧
      (basketsOf st uid = [b] → ∀ pid q, listingExists st pid = true →
        ∃ b2, basketsOf (addItem (checkout st uid (some cid)).2 uid pid q).2 uid = [b2] ∧
          b2.id ≠ b.id)) := by
  refine ⟨?_, ?_, ?_, ?_⟩
  · intro hnone
    unfold checkout
    rw [hnone]
  · intro b hfind hempty
    unfold checkout
    rw [hfind]
    dsimp only
    rw [hempty]
    rfl
  · intro b hfind hne hcon
    unfold checkout
    rw [hfind]
    dsimp only
    rw [if_neg (by simpa using hne), hcon]
  · intro b c hfind hne hcon
    have hck : checkout st uid (some cid) =
        (.ok b.id,
          { st with orders := st.orders.map fun o =>
              if o.id = b.id then { o with contactId := some c.id, status := "new" } else o }) := by
      unfold checkout
      rw [hfind]
      dsimp only
      rw [if_neg (by simpa using hne), hcon]
    rw [hck]
    have hbmem : b ∈ st.orders := List.mem_of_find?_eq_some hfind
    refine ⟨rfl, ?_, ?_⟩
    · refine ⟨{ b with contactId := some c.id, status := "new" }, ?_, rfl, rfl⟩
      dsimp only
      rw [List.find?_map, checkout_update_id_pred, find?_id_unique st.orders b hbmem hok.2.2.1]
      dsimp only [Option.map]
      rw [if_pos rfl]
    · intro hsingle pid q hex
      have hempty2 : basketsOf
          { st with orders := st.orders.map fun o =>
              if o.id = b.id then { o with contactId := some c.id, status := "new" } else o }
          uid = [] := by
        unfold basketsOf
        dsimp only
        apply baskets_after_checkout
        intro x hx hp
        have hxmem : x ∈ basketsOf st uid := List.mem_filter.mpr ⟨hx, hp⟩
        rw [hsingle] at hxmem
        have : x = b := by simpa using hxmem
        rw [this]
      refine ⟨{ id := st.nextId, userId := uid, status := "basket", contactId := none },
        ?_, ?_⟩
      · unfold addItem
        dsimp only
        split
        · rw [hempty2]
          dsimp only
          unfold basketsOf
          rw [addItemLine_orders]
          dsimp only
          rw [filter_basket_cons_self _ uid
            { id := st.nextId, userId := uid, status := "basket", contactId := none } rfl rfl]
          unfold basketsOf at hempty2
          dsimp only at hempty2
          rw [hempty2]
          rfl
        · rename_i hfalse
          exact absurd hex hfalse
      · have hblt := hok.1 b hbmem
        dsimp only
        omega

/-- Witness for `checkout_contract` at `baseStore`, user 1, contact 40. -/
theorem checkout_contract_witness :
    (findBasket baseStore 1 = none → checkout baseStore 1 (some 40) = (.emptyBasket, baseStore)) ∧
    (∀ b, findBasket baseStore 1 = some b → itemsForOrder baseStore b.id = [] →
      checkout baseStore 1 (some 40) = (.emptyBasket, baseStore)) ∧
    (∀ b, findBasket baseStore 1 = some b → itemsForOrder baseStore b.id ≠ [] →
      baseStore.contacts.find? (fun c => decide (c.id = 40 ∧ c.userId = 1)) = none →
      checkout baseStore 1 (some 40) = (.contactNotFound, baseStore)) ∧
    (∀ b c, findBasket baseStore 1 = some b → itemsForOrder baseStore b.id ≠ [] →
      baseStore.contacts.find? (fun c => decide (c.id = 40 ∧ c.userId = 1)) = some c →
      (checkout baseStore 1 (some 40)).1 = .ok b.id ∧
      (∃ o, (((checkout baseStore 1 (some 40)).2).orders.find?
          (fun x => decide (x.id = b.id))) = some o ∧
        o.status = "new" ∧ o.contactId = some c.id) ∧
      (basketsOf baseStore 1 = [b] → ∀ pid q, listingExists baseStore pid = true →
        ∃ b2, basketsOf (addItem (checkout baseStore 1 (some 40)).2 1 pid q).2 1 = [b2] ∧
          b2.id ≠ b.id)) :=
  checkout_contract baseStore 1 40 (by decide)

/-! ## Import frame lemmas -/

theorem resolveParameter_categories (s : Store) (nm : String) :
    ((resolveParameter s nm).2.1).categories = s.categories := by
  unfold resolveParameter
  split <;> rfl

theorem createParams_categories : ∀ (ps : List (String × String)) (s : Store) (infoId : Nat),
    ((createParams s infoId ps).2).categories = s.categories := by
  intro ps
  induction ps with
  | nil => intro s infoId; rfl
  | cons p rest ih =>
    intro s infoId
    rcases p with ⟨nm, v⟩
    unfold createParams
    rcases hr : resolveParameter s nm with ⟨e?, s1, prId⟩
    have hcat : s1.categories = s.categories := by
      have := resolveParameter_categories s nm
      rw [hr] at this
      exact this
    cases e? with
    | some e =>
        dsimp only
        exact hcat
    | none =>
        dsimp only
        split
        · exact hcat
        · rw [ih]
          exact hcat

theorem resolveProduct_categories (s : Store) (g : GoodEntry) :
    ((resolveProduct s g).2.1).categories = s.categories := by
  unfold resolveProduct
  split
  · split <;> rfl
  · rfl
  · rfl

theorem processGood_categories (s : Store) (shopId : Nat) (g : GoodEntry) :
    ((processGood s shopId g).2).categories = s.categories := by
  unfold processGood
  rcases hr : resolveProduct s g with ⟨e?, s1, prodId⟩
  have hcat : s1.categories = s.categories := by
    have := resolveProduct_categories s g
    rw [hr] at this
    exact this
  cases e? with
  | some e => exact hcat
  | none =>
      dsimp only
      split
      · exact hcat
      · rw [createParams_categories]
        exact hcat

theorem processGoods_categories : ∀ (gs : List GoodEntry) (s : Store) (shopId : Nat),
    ((processGoods s shopId gs).2).categories = s.categories := by
  intro gs
  induction gs with
  | nil => intro s shopId; rfl
  | cons g rest ih =>
    intro s shopId
    unfold processGoods
    rcases hp : processGood s shopId g with ⟨e?, s1⟩
    have hcat : s1.categories = s.categories := by
      have := processGood_categories s shopId g
      rw [hp] at this
      exact this
    cases e? with
    | some e => exact hcat
    | none =>
        dsimp only
        rw [ih]
        exact hcat

theorem deleteShopListings_categories (s : Store) (shopId : Nat) :
    ((deleteShopListings s shopId)).categories = s.categories := rfl

/-! ## Claim C9: category names are frozen at first import -/

theorem processCategory_preserves (s : Store) (shopId : Nat) (ce : CategoryEntry)
    (c : CategoryRow) (hc : c ∈ s.categories) :
    ∃ c2 ∈ (processCategory s shopId ce).categories,
      c2.id = c.id ∧ c2.name = c.name ∧ ∀ x ∈ c.shops, x ∈ c2.shops := by
  unfold processCategory
  have hc1 : c ∈ (if s.categories.any (fun x => decide (x.id = ce.id)) then s
      else { s with categories := s.categories ++
        [{ id := ce.id, name := ce.name, shops := [] }] }).categories := by
    split
    · exact hc
    · exact List.mem_append_left _ hc
  refine ⟨if c.id = ce.id ∧ ¬ (c.shops.contains shopId) then
      { c with shops := c.shops ++ [shopId] } else c, List.mem_map_of_mem _ hc1, ?_⟩
  by_cases hcc : c.id = ce.id ∧ ¬ (c.shops.contains shopId)
  · rw [if_pos hcc]
    exact ⟨rfl, rfl, fun x hx => List.mem_append_left _ hx⟩
  · rw [if_neg hcc]
    exact ⟨rfl, rfl, fun x hx => hx⟩

theorem processCategory_adds (s : Store) (shopId : Nat) (ce : CategoryEntry)
    (c2 : CategoryRow) (hc2 : c2 ∈ (processCategory s shopId ce).categories)
    (hid : c2.id = ce.id) : shopId ∈ c2.shops := by
  unfold processCategory at hc2
  rcases List.mem_map.mp hc2 with ⟨c1, hc1, hmap⟩
  by_cases hcc : c1.id = ce.id ∧ ¬ (c1.shops.contains shopId)
  · rw [if_pos hcc] at hmap
    rw [← hmap]
    exact List.mem_append_right _ (by simp)
  · rw [if_neg hcc] at hmap
    rw [← hmap]
    rw [← hmap] at hid
    rcases Decidable.not_and_iff_or_not.mp hcc with h1 | h2
    · exact absurd hid h1
    · have hcont := not_not.mp h2
      rcases List.contains_iff_exists_mem_beq.mp hcont with ⟨a, hmem, hbeq⟩
      rw [show shopId = a from eq_of_beq hbeq]
      exact hmem

theorem processCategories_spec (shopId : Nat) :
    ∀ (ces : List CategoryEntry) (s : Store) (c : CategoryRow), c ∈ s.categories →
    ∃ c2 ∈ (processCategories s shopId ces).categories,
      c2.id = c.id ∧ c2.name = c.name ∧ (∀ x ∈ c.shops, x ∈ c2.shops) ∧
      ((∃ ce ∈ ces, ce.id = c.id) → shopId ∈ c2.shops) := by
  intro ces
  induction ces with
  | nil =>
    intro s c hc
    refine ⟨c, hc, rfl, rfl, fun x hx => hx, ?_⟩
    rintro ⟨ce, hce, -⟩
    cases hce
  | cons ce rest ih =>
    intro s c hc
    rcases processCategory_preserves s shopId ce c hc with ⟨c1, hc1, hid1, hname1, hsub1⟩
    rcases ih (processCategory s shopId ce) c1 hc1 with ⟨c2, hc2, hid2, hname2, hsub2, hadd2⟩
    refine ⟨c2, hc2, hid2.trans hid1, hname2.trans hname1,
      fun x hx => hsub2 x (hsub1 x hx), ?_⟩
    rintro ⟨ce0, hce0, hceid⟩
    rcases List.mem_cons.mp hce0 with rfl | hce0r
    · -- the head entry already added the shop before the remaining entries ran
      have : shopId ∈ c1.shops :=
        processCategory_adds s shopId ce0 c1 hc1 (by rw [hid1, ← hceid])
      exact hsub2 _ this
    · exact hadd2 ⟨ce0, hce0r, by rw [hceid, ← hid1]⟩

theorem doImportCore_ok_categories (st : Store) (shopId : Nat) (feed : Feed) (st1 : Store)
    (h : doImportCore st shopId feed = (none, st1)) :
    ∃ ces, feed.categories = some ces ∧
      st1.categories = (processCategories st shopId ces).categories := by
  unfold doImportCore at h
  rcases hsh : st.shops.find? (fun s => decide (s.id = shopId)) with - | sh
  · rw [hsh] at h
    cases h
  · rw [hsh] at h
    dsimp only at h
    rcases hcats : feed.categories with - | ces
    · rw [hcats] at h
      cases h
    · rw [hcats] at h
      dsimp only at h
      rcases hgoods : feed.goods with - | gs
      · rw [hgoods] at h
        cases h
      · rw [hgoods] at h
        dsimp only at h
        refine ⟨ces, rfl, ?_⟩
        have := processGoods_categories gs
          (deleteShopListings (processCategories st shopId ces) shopId) shopId
        rw [h] at this
        dsimp only at this
        rw [this]
        rfl

/-- C9: an import run never renames an existing category — the feed name is
used only when the id is first created — and, when the run succeeds, it adds
the shop to the category's shop set for every feed entry naming that id;
the category's previous shop set is preserved in every case. -/
theorem category_names_frozen (st : Store) (shopId : Nat) (feed : Feed)
    (c : CategoryRow) (hc : c ∈ st.categories) :
    ∃ c2 ∈ ((do_import st shopId feed).2).categories,
      c2.id = c.id ∧ c2.name = c.name ∧ (∀ x ∈ c.shops, x ∈ c2.shops) ∧
      ((do_import st shopId feed).1 = none →
        (∃ ce ∈ feed.categories.getD [], ce.id = c.id) → shopId ∈ c2.shops) := by
  unfold do_import
  rcases hcore : doImportCore st shopId feed with ⟨e?, st1⟩
  cases e? with
  | some e =>
    dsimp only
    exact ⟨c, hc, rfl, rfl, fun x hx => hx, by intro h; cases h⟩
  | none =>
    dsimp only
    rcases doImportCore_ok_categories st shopId feed st1 hcore with ⟨ces, hces, hcat⟩
    rcases processCategories_spec shopId ces st c hc with ⟨c2, hc2, hid, hname, hsub, hadd⟩
    rw [hcat]
    refine ⟨c2, hc2, hid, hname, hsub, ?_⟩
    intro _ hex
    apply hadd
    rw [hces] at hex
    exact hex

/-- Witness for `category_names_frozen`: importing `feedGood`, whose category
entry 1 carries the name `phones`, over `baseStore` keeps category 1's
stored name and adds shop 10 to its shop set. -/
theorem category_names_frozen_witness :
    ∃ c2 ∈ ((do_import baseStore 10 feedGood).2).categories,
      c2.id = ({ id := 1, name := "phones", shops := [10, 11] } : CategoryRow).id ∧
      c2.name = ({ id := 1, name := "phones", shops := [10, 11] } : CategoryRow).name ∧
      (∀ x ∈ ({ id := 1, name := "phones", shops := [10, 11] } : CategoryRow).shops, x ∈ c2.shops) ∧
      ((do_import baseStore 10 feedGood).1 = none →
        (∃ ce ∈ feedGood.categories.getD [], ce.id = 1) → 10 ∈ c2.shops) :=
  category_names_frozen baseStore 10 feedGood
    { id := 1, name := "phones", shops := [10, 11] } (by decide)

/-! ## Claim C1: the management-command import commits its partial state -/

/-- C1 failing input, evaluated: importing `feedNoGoods` (whose top-level
`goods` key is missing) for shop `acme` through the management command
reports the missing field, yet the full-replace delete of the shop's one
existing listing is committed — the shop's catalog is emptied, not
preserved.  The `try/except` inside the `@transaction.atomic`-decorated
`import_data` swallows the `KeyError` and returns normally, so the atomic
decorator commits the partial writes.  The celery-task path (`do_import`),
whose `try/except` sits outside `with transaction.atomic():`, does roll the
same failure back. -/
theorem import_data_commits_partial_delete :
    (import_data baseStore "acme" none feedNoGoods).1 = (false, .missingField "goods") ∧
    shopListingsProj (import_data baseStore "acme" none feedNoGoods).2 10 = [] ∧
    (shopListingsProj baseStore 10).length = 1 ∧
    (do_import baseStore 10 feedNoGoods).2 = baseStore := by
  decide

/-! ## Claim C8: supplier scoping -/

theorem detailLine_quantity (st : Store) (it : OrderItemRow) :
    (detailLine st it).quantity = it.quantity := by
  unfold detailLine
  split <;> rfl

theorem mem_shopLines (st : Store) (orderId shopId : Nat) (it : OrderItemRow)
    (h : it ∈ shopLines st orderId shopId) :
    it ∈ st.orderItems ∧ it.orderId = orderId ∧
      ∃ x ∈ st.productInfos, x.id = it.productInfoId ∧ x.shopId = shopId := by
  unfold shopLines at h
  rcases List.mem_filter.mp h with ⟨hmem, hp⟩
  rcases (Bool.and_eq_true _ _).mp hp with ⟨h1, h2⟩
  rcases List.any_eq_true.mp h2 with ⟨x, hx, hxp⟩
  exact ⟨hmem, of_decide_eq_true h1, x, hx, of_decide_eq_true hxp⟩

/-- C8: for a supplier caller owning shop `shop`, every summary entry counts
and totals only this shop's lines of its order; the detail response lists
exactly this shop's lines (each returned line corresponds to an `OrderItem`
of the order whose listing belongs to this shop, with the item's quantity);
and the detail view answers `NotFound` for an order that exists but has no
line from this shop. -/
theorem supplier_scoping (st : Store) (uid : Nat) (u : UserRow) (shop : ShopRow)
    (hu : st.users.find? (fun x => decide (x.id = uid)) = some u)
    (hut : u.type = "supplier")
    (hs : st.shops.find? (fun s => decide (s.userId = some uid)) = some shop) :
    (∀ es, supplierOrders st uid = .ok es →
      ∀ e ∈ es, e.items_count = (shopLines st e.id shop.id).length ∧
        e.total_amount = ((shopLines st e.id shop.id).map
          (fun it => (it.quantity : Rat) * listingPrice st it.productInfoId)).sum) ∧
    (∀ oid d, supplierOrderDetail st uid oid = .ok d →
      d.items = (shopLines st oid shop.id).map (detailLine st) ∧
      ∀ ln ∈ d.items, ∃ it ∈ st.orderItems, it.orderId = oid ∧
        (∃ x ∈ st.productInfos, x.id = it.productInfoId ∧ x.shopId = shop.id) ∧
        ln.quantity = it.quantity) ∧
    (∀ oid o, st.orders.find? (fun x => decide (x.id = oid)) = some o →
      shopLines st oid shop.id = [] → supplierOrderDetail st uid oid = .noShopItems) := by
  have hneg : ¬ (u.type ≠ "supplier") := by simp [hut]
  refine ⟨?_, ?_, ?_⟩
  · intro es heq e he
    unfold supplierOrders at heq
    rw [hu] at heq
    dsimp only at heq
    rw [if_neg hneg, hs] at heq
    dsimp only at heq
    cases heq
    rcases List.mem_map.mp he with ⟨o, ho, rfl⟩
    unfold orderSummary linesTotal
    exact ⟨rfl, rfl⟩
  · intro oid d heq
    unfold supplierOrderDetail at heq
    rw [hu] at heq
    dsimp only at heq
    rw [if_neg hneg, hs] at heq
    dsimp only at heq
    rcases ho : st.orders.find? (fun o => decide (o.id = oid)) with - | o
    · rw [ho] at heq
      cases heq
    · rw [ho] at heq
      dsimp only at heq
      by_cases hemp : (shopLines st oid shop.id).isEmpty
      · rw [if_pos hemp] at heq
        cases heq
      · rw [if_neg hemp] at heq
        cases heq
        refine ⟨rfl, ?_⟩
        intro ln hln
        rcases List.mem_map.mp hln with ⟨it, hit, rfl⟩
        rcases mem_shopLines st oid shop.id it hit with ⟨hmem, hoid, hx⟩
        exact ⟨it, hmem, hoid, hx, detailLine_quantity st it⟩
  · intro oid o ho hlines
    unfold supplierOrderDetail
    rw [hu]
    dsimp only
    rw [if_neg hneg, hs]
    dsimp only
    rw [ho]
    dsimp only
    rw [hlines]
    rfl

/-- Witness for `supplier_scoping`: supplier 2 (shop 10) querying
`orderStore`, where order 60 has lines from both shops and order 63 only
from shop 11. -/
theorem supplier_scoping_witness :
    (∀ es, supplierOrders orderStore 2 = .ok es →
      ∀ e ∈ es, e.items_count = (shopLines orderStore e.id 10).length ∧
        e.total_amount = ((shopLines orderStore e.id 10).map
          (fun it => (it.quantity : Rat) * listingPrice orderStore it.productInfoId)).sum) ∧
    (∀ oid d, supplierOrderDetail orderStore 2 oid = .ok d →
      d.items = (shopLines orderStore oid 10).map (detailLine orderStore) ∧
      ∀ ln ∈ d.items, ∃ it ∈ orderStore.orderItems, it.orderId = oid ∧
        (∃ x ∈ orderStore.productInfos, x.id = it.productInfoId ∧ x.shopId = 10) ∧
        ln.quantity = it.quantity) ∧
    (∀ oid o, orderStore.orders.find? (fun x => decide (x.id = oid)) = some o →
      shopLines orderStore oid 10 = [] → supplierOrderDetail orderStore 2 oid = .noShopItems) :=
  supplier_scoping orderStore 2 { id := 2, username := "bob", type := "supplier" }
    { id := 10, name := "acme", userId := some 2, is_active := true }
    (by decide) rfl (by decide)

/-! ## Claim C3: duplicate (product, shop) pairs in one feed -/

/-- Some product matching the goods key already carries a listing for the
shop — the configuration that makes `ProductInfo.objects.create` violate the
unique (product, shop) constraint. -/
def hasKeyListing (st : Store) (shopId : Nat) (nm : String) (cat : Nat) : Prop :=
  ∃ p ∈ st.products, p.name = nm ∧ p.categoryId = cat ∧
    ∃ x ∈ st.productInfos, x.productId = p.id ∧ x.shopId = shopId

theorem resolveParameter_frame (s : Store) (nm : String) :
    ((resolveParameter s nm).2.1).products = s.products ∧
    ((resolveParameter s nm).2.1).productInfos = s.productInfos := by
  unfold resolveParameter
  split <;> exact ⟨rfl, rfl⟩

theorem createParams_frame : ∀ (ps : List (String × String)) (s : Store) (infoId : Nat),
    ((createParams s infoId ps).2).products = s.products ∧
    ((createParams s infoId ps).2).productInfos = s.productInfos := by
  intro ps
  induction ps with
  | nil => intro s infoId; exact ⟨rfl, rfl⟩
  | cons p rest ih =>
    intro s infoId
    rcases p with ⟨nm, v⟩
    unfold createParams
    rcases hr : resolveParameter s nm with ⟨e?, s1, prId⟩
    have hfr := resolveParameter_frame s nm
    rw [hr] at hfr
    cases e? with
    | some e => exact hfr
    | none =>
        dsimp only
        split
        · exact hfr
        · rcases ih _ infoId with ⟨ih1, ih2⟩
          rw [ih1, ih2]
          exact hfr

theorem resolveProduct_ok_inv (s : Store) (g : GoodEntry) (s1 : Store) (pid : Nat)
    (h : resolveProduct s g = (none, s1, pid)) :
    (prodMatches s.products g.name g.category = [] ∧ pid = s.nextId ∧
      s1 = { s with
        products := s.products ++ [{ id := s.nextId, name := g.name, categoryId := g.category }],
        nextId := s.nextId + 1 }) ∨
    (∃ p, prodMatches s.products g.name g.category = [p] ∧ pid = p.id ∧ s1 = s) := by
  unfold resolveProduct at h
  rcases hm : prodMatches s.products g.name g.category with - | ⟨p, - | ⟨p2, t⟩⟩
  · rw [hm] at h
    dsimp only at h
    split at h
    · rcases h with ⟨-, -⟩
      exact Or.inl ⟨rfl, rfl, rfl⟩
    · cases h
  · rw [hm] at h
    dsimp only at h
    rcases h with ⟨-, -⟩
    exact Or.inr ⟨p, rfl, rfl, rfl⟩
  · rw [hm] at h
    cases h

theorem processGood_err_of_key (s : Store) (shopId : Nat) (g : GoodEntry)
    (h : hasKeyListing s shopId g.name g.category) :
    ((processGood s shopId g).1).isSome = true := by
  rcases h with ⟨p, hp, hpn, hpc, x, hx, hxp, hxs⟩
  have hpmem : p ∈ prodMatches s.products g.name g.category := by
    unfold prodMatches
    exact List.mem_filter.mpr ⟨hp, by simp [hpn, hpc]⟩
  unfold processGood
  rcases hres : resolveProduct s g with ⟨e?, sA, pid⟩
  cases e? with
  | some e => rfl
  | none =>
    dsimp only
    rcases resolveProduct_ok_inv s g sA pid hres with ⟨hnil, -, -⟩ | ⟨q, hone, hpid, hsA⟩
    · rw [hnil] at hpmem
      cases hpmem
    · have hpq : p = q := by
        rw [hone] at hpmem
        simpa using hpmem
      have hany : sA.productInfos.any
          (fun y => decide (y.productId = pid ∧ y.shopId = shopId)) = true := by
        rw [hsA]
        exact List.any_eq_true.mpr ⟨x, hx, by simp [hxp, hpid, ← hpq, hxs]⟩
      rw [if_pos hany]
      rfl

theorem processGood_ok_inv (s : Store) (shopId : Nat) (g : GoodEntry) (s1 : Store)
    (h : processGood s shopId g = (none, s1)) :
    ∃ sA pid, resolveProduct s g = (none, sA, pid) ∧
      sA.productInfos.any (fun y => decide (y.productId = pid ∧ y.shopId = shopId)) = false ∧
      s1.products = sA.products ∧
      s1.productInfos = sA.productInfos ++
        [{ id := sA.nextId, productId := pid, shopId := shopId, external_id := g.id,
           model := g.model, quantity := g.quantity, price := g.price,
           price_rrc := g.price_rrc }] := by
  unfold processGood at h
  rcases hres : resolveProduct s g with ⟨e?, sA, pid⟩
  rw [hres] at h
  cases e? with
  | some e => cases h
  | none =>
    dsimp only at h
    by_cases hany : sA.productInfos.any
        (fun y => decide (y.productId = pid ∧ y.shopId = shopId)) = true
    · rw [if_pos hany] at h
      cases h
    · rw [if_neg hany] at h
      rcases createParams_frame g.parameters
        { sA with
          productInfos := sA.productInfos ++
            [{ id := sA.nextId, productId := pid, shopId := shopId, external_id := g.id,
               model := g.model, quantity := g.quantity, price := g.price,
               price_rrc := g.price_rrc }],
          nextId := sA.nextId + 1 } sA.nextId with ⟨hf1, hf2⟩
      rw [h] at hf1 hf2
      exact ⟨sA, pid, rfl, Bool.not_eq_true _ ▸ Bool.of_not_eq_true hany, hf1, hf2⟩

theorem processGood_mono (s : Store) (shopId : Nat) (g : GoodEntry) (s1 : Store)
    (h : processGood s shopId g = (none, s1)) :
    (∀ p ∈ s.products, p ∈ s1.products) ∧ (∀ x ∈ s.productInfos, x ∈ s1.productInfos) := by
  rcases processGood_ok_inv s shopId g s1 h with ⟨sA, pid, hres, -, hprod, hinfo⟩
  rcases resolveProduct_ok_inv s g sA pid hres with ⟨-, -, hsA⟩ | ⟨q, -, -, hsA⟩
  · constructor
    · intro p hp
      rw [hprod, hsA]
      exact List.mem_append_left _ hp
    · intro x hx
      rw [hinfo, hsA]
      exact List.mem_append_left _ hx
  · constructor
    · intro p hp
      rw [hprod, hsA]
      exact hp
    · intro x hx
      rw [hinfo, hsA]
      exact List.mem_append_left _ hx

theorem processGood_ok_key (s : Store) (shopId : Nat) (g : GoodEntry) (s1 : Store)
    (h : processGood s shopId g = (none, s1)) :
    hasKeyListing s1 shopId g.name g.category := by
  rcases processGood_ok_inv s shopId g s1 h with ⟨sA, pid, hres, -, hprod, hinfo⟩
  have hrow : ∃ y ∈ s1.productInfos, y.productId = pid ∧ y.shopId = shopId := by
    rw [hinfo]
    exact ⟨{ id := sA.nextId, productId := pid, shopId := shopId, external_id := g.id, model := g.model, quantity := g.quantity, price := g.price, price_rrc := g.price_rrc }, List.mem_append_right _ (List.mem_singleton_self _), rfl, rfl⟩
  rcases hrow with ⟨y, hy, hy1, hy2⟩
  rcases resolveProduct_ok_inv s g sA pid hres with ⟨-, hpid, hsA⟩ | ⟨q, hone, hpid, hsA⟩
  · refine ⟨{ id := s.nextId, name := g.name, categoryId := g.category }, ?_, rfl, rfl,
      y, hy, ?_, hy2⟩
    · rw [hprod, hsA]
      exact List.mem_append_right _ (by simp)
    · rw [hy1, hpid]
  · have hq : q ∈ prodMatches s.products g.name g.category := by
      rw [hone]
      simp
    rcases List.mem_filter.mp hq with ⟨hqmem, hqp⟩
    rcases of_decide_eq_true hqp with ⟨hqn, hqc⟩
    refine ⟨q, ?_, hqn, hqc, y, hy, ?_, hy2⟩
    · rw [hprod, hsA]
      exact hqmem
    · rw [hy1, hpid]

theorem processGood_keeps_key (s : Store) (shopId : Nat) (g : GoodEntry) (s1 : Store)
    (h : processGood s shopId g = (none, s1)) (nm : String) (cat : Nat)
    (hk : hasKeyListing s shopId nm cat) : hasKeyListing s1 shopId nm cat := by
  rcases processGood_mono s shopId g s1 h with ⟨hmp, hmi⟩
  rcases hk with ⟨p, hp, hpn, hpc, x, hx, hxp, hxs⟩
  exact ⟨p, hmp p hp, hpn, hpc, x, hmi x hx, hxp, hxs⟩

theorem processGoods_err_dup (shopId : Nat) :
    ∀ (gs : List GoodEntry) (s : Store) (nm : String) (cat : Nat),
      hasKeyListing s shopId nm cat →
      (∃ g ∈ gs, g.name = nm ∧ g.category = cat) →
      ((processGoods s shopId gs).1).isSome = true := by
  intro gs
  induction gs with
  | nil =>
    rintro s nm cat - ⟨g, hg, -⟩
    cases hg
  | cons g rest ih =>
    rintro s nm cat hk ⟨g0, hg0, hg0n, hg0c⟩
    unfold processGoods
    rcases hp : processGood s shopId g with ⟨e?, s1⟩
    cases e? with
    | some e => rfl
    | none =>
      dsimp only
      rcases List.mem_cons.mp hg0 with rfl | hg0r
      · -- the head entry itself hits the existing (product, shop) pair
        have := processGood_err_of_key s shopId g0 (by rw [hg0n, hg0c]; exact hk)
        rw [hp] at this
        cases this
      · exact ih s1 nm cat (processGood_keeps_key s shopId g s1 hp nm cat hk)
          ⟨g0, hg0r, hg0n, hg0c⟩

theorem processGoods_err_two (shopId : Nat) (a b : GoodEntry)
    (hn : a.name = b.name) (hc : a.category = b.category) :
    ∀ (l1 : List GoodEntry) (l2 l3 : List GoodEntry) (s : Store),
      ((processGoods s shopId (l1 ++ a :: l2 ++ b :: l3)).1).isSome = true := by
  intro l1
  induction l1 with
  | nil =>
    intro l2 l3 s
    rw [List.nil_append]
    simp only [processGoods]
    rcases hp : processGood s shopId a with ⟨e?, s1⟩
    cases e? with
    | some e => rfl
    | none =>
      dsimp only
      exact processGoods_err_dup shopId (l2 ++ b :: l3) s1 a.name a.category
        (processGood_ok_key s shopId a s1 hp)
        ⟨b, List.mem_append_right _ (by simp), hn.symm, hc.symm⟩
  | cons cHead t ih =>
    intro l2 l3 s
    rw [List.cons_append]
    simp only [processGoods]
    rcases hp : processGood s shopId cHead with ⟨e?, s1⟩
    cases e? with
    | some e => rfl
    | none =>
      dsimp only
      exact ih l2 l3 s1

theorem doImportCore_ok_inv (st : Store) (shopId : Nat) (feed : Feed) (st1 : Store)
    (h : doImportCore st shopId feed = (none, st1)) :
    ∃ sh ces gs, st.shops.find? (fun s => decide (s.id = shopId)) = some sh ∧
      feed.categories = some ces ∧ feed.goods = some gs ∧
      processGoods (deleteShopListings (processCategories st shopId ces) shopId) shopId gs =
        (none, st1) := by
  unfold doImportCore at h
  rcases hsh : st.shops.find? (fun s => decide (s.id = shopId)) with - | sh
  · rw [hsh] at h
    cases h
  · rw [hsh] at h
    dsimp only at h
    rcases hcats : feed.categories with - | ces
    · rw [hcats] at h
      cases h
    · rw [hcats] at h
      dsimp only at h
      rcases hgoods : feed.goods with - | gs
      · rw [hgoods] at h
        cases h
      · rw [hgoods] at h
        dsimp only at h
        exact ⟨sh, ces, gs, hsh, rfl, rfl, h⟩

/-- C3 (amended): a feed whose goods list holds two entries with the same
(name, category) — hence resolving to the same (product, shop) pair — makes
`ProductInfo.objects.create` for the later entry (or an earlier step) fail,
so the celery import reports an error and rolls the store back unchanged;
last-write-wins does not happen and no listing row of the failed run
persists. -/
theorem duplicate_pair_import_fails (st : Store) (shopId : Nat) (feed : Feed)
    (l1 l2 l3 : List GoodEntry) (a b : GoodEntry)
    (hg : feed.goods = some (l1 ++ a :: l2 ++ b :: l3))
    (hn : a.name = b.name) (hc : a.category = b.category) :
    ((do_import st shopId feed).1).isSome = true ∧ (do_import st shopId feed).2 = st := by
  unfold do_import
  rcases hcore : doImportCore st shopId feed with ⟨e?, st1⟩
  cases e? with
  | some e => exact ⟨rfl, rfl⟩
  | none =>
    exfalso
    rcases doImportCore_ok_inv st shopId feed st1 hcore with ⟨sh, ces, gs, -, -, hgs, hrun⟩
    rw [hg] at hgs
    rcases hgs with ⟨-⟩
    have := processGoods_err_two shopId a b hn hc l1 l2 l3
      (deleteShopListings (processCategories st shopId ces) shopId)
    rw [hrun] at this
    cases this

/-- C3 counterexample: `feedDup` resolves its two goods entries to the same
(product, shop) pair; the claim says the import succeeds with one listing
row carrying the second entry's values, but the run fails with the
unique-constraint `IntegrityError` and rolls back — `baseStore` is returned
unchanged. -/
theorem duplicate_pair_counterexample :
    (do_import baseStore 10 feedDup).1 = some .dbError ∧
    (do_import baseStore 10 feedDup).2 = baseStore := by
  decide

/-- Witness for `duplicate_pair_import_fails` at the concrete duplicate
feed. -/
theorem duplicate_pair_import_fails_witness :
    ((do_import baseStore 10 feedDup).1).isSome = true ∧
    (do_import baseStore 10 feedDup).2 = baseStore :=
  duplicate_pair_import_fails baseStore 10 feedDup [] []
    [] { id := 101, name := "x1", category := 1, model := "m1", price := 100,
         price_rrc := 120, quantity := 5, parameters := [] }
    { id := 102, name := "x1", category := 1, model := "m1b", price := 90,
      price_rrc := 110, quantity := 3, parameters := [] }
    (by decide) rfl rfl

/-! ## Claim C7: frame and well-formedness lemmas for the import pipeline -/

theorem processCategory_frame (s : Store) (shopId : Nat) (ce : CategoryEntry) :
    (processCategory s shopId ce).products = s.products ∧
    (processCategory s shopId ce).productInfos = s.productInfos ∧
    (processCategory s shopId ce).parameters = s.parameters ∧
    (processCategory s shopId ce).productParameters = s.productParameters ∧
    (processCategory s shopId ce).shops = s.shops ∧
    (processCategory s shopId ce).nextId = s.nextId := by
  unfold processCategory
  split <;> exact ⟨rfl, rfl, rfl, rfl, rfl, rfl⟩

theorem processCategories_frame (shopId : Nat) : ∀ (ces : List CategoryEntry) (s : Store),
    (processCategories s shopId ces).products = s.products ∧
    (processCategories s shopId ces).productInfos = s.productInfos ∧
    (processCategories s shopId ces).parameters = s.parameters ∧
    (processCategories s shopId ces).productParameters = s.productParameters ∧
    (processCategories s shopId ces).shops = s.shops ∧
    (processCategories s shopId ces).nextId = s.nextId := by
  intro ces
  induction ces with
  | nil => intro s; exact ⟨rfl, rfl, rfl, rfl, rfl, rfl⟩
  | cons ce rest ih =>
    intro s
    have h1 := processCategory_frame s shopId ce
    have h2 := ih (processCategory s shopId ce)
    exact ⟨h2.1.trans h1.1, h2.2.1.trans h1.2.1, h2.2.2.1.trans h1.2.2.1,
      h2.2.2.2.1.trans h1.2.2.2.1, h2.2.2.2.2.1.trans h1.2.2.2.2.1,
      h2.2.2.2.2.2.trans h1.2.2.2.2.2⟩

theorem deleteShopListings_frame (s : Store) (shopId : Nat) :
    (deleteShopListings s shopId).products = s.products ∧
    (deleteShopListings s shopId).parameters = s.parameters ∧
    (deleteShopListings s shopId).shops = s.shops ∧
    (deleteShopListings s shopId).nextId = s.nextId :=
  ⟨rfl, rfl, rfl, rfl⟩

theorem resolveParameter_shops (s : Store) (nm : String) :
    ((resolveParameter s nm).2.1).shops = s.shops := by
  unfold resolveParameter
  split <;> rfl

theorem createParams_shops : ∀ (ps : List (String × String)) (s : Store) (infoId : Nat),
    ((createParams s infoId ps).2).shops = s.shops := by
  intro ps
  induction ps with
  | nil => intro s infoId; rfl
  | cons p rest ih =>
    intro s infoId
    rcases p with ⟨nm, v⟩
    unfold createParams
    rcases hr : resolveParameter s nm with ⟨e?, s1, prId⟩
    have hfr := resolveParameter_shops s nm
    rw [hr] at hfr
    cases e? with
    | some e => exact hfr
    | none =>
      dsimp only
      split
      · exact hfr
      · rw [ih]
        exact hfr

theorem resolveProduct_shops (s : Store) (g : GoodEntry) :
    ((resolveProduct s g).2.1).shops = s.shops := by
  unfold resolveProduct
  split
  · split <;> rfl
  · rfl
  · rfl

theorem processGood_shops (s : Store) (shopId : Nat) (g : GoodEntry) :
    ((processGood s shopId g).2).shops = s.shops := by
  unfold processGood
  rcases hr : resolveProduct s g with ⟨e?, s1, prodId⟩
  have hfr := resolveProduct_shops s g
  rw [hr] at hfr
  cases e? with
  | some e => exact hfr
  | none =>
    dsimp only
    split
    · exact hfr
    · rw [createParams_shops]
      exact hfr

theorem processGoods_shops : ∀ (gs : List GoodEntry) (s : Store) (shopId : Nat),
    ((processGoods s shopId gs).2).shops = s.shops := by
  intro gs
  induction gs with
  | nil => intro s shopId; rfl
  | cons g rest ih =>
    intro s shopId
    unfold processGoods
    rcases hp : processGood s shopId g with ⟨e?, s1⟩
    have hfr := processGood_shops s shopId g
    rw [hp] at hfr
    cases e? with
    | some e => exact hfr
    | none =>
      dsimp only
      rw [ih]
      exact hfr

theorem shopListingsProj_delete (s : Store) (shopId : Nat) :
    shopListingsProj (deleteShopListings s shopId) shopId = [] := by
  unfold shopListingsProj deleteShopListings
  dsimp only
  rw [List.map_eq_nil_iff]
  rw [List.filter_eq_nil_iff]
  intro x hx
  rcases List.mem_filter.mp hx with ⟨-, hp⟩
  simp only [Bool.not_eq_eq_eq_not, Bool.not_true, decide_eq_false_iff_not] at hp
  simp [hp]

theorem importOk_of_frame (s t : Store) (h : ImportOk s)
    (hp : t.products = s.products) (hi : t.productInfos = s.productInfos)
    (hpar : t.parameters = s.parameters) (hpp : t.productParameters = s.productParameters)
    (hn : t.nextId = s.nextId) : ImportOk t := by
  unfold ImportOk at h ⊢
  rw [hp, hi, hpar, hpp, hn]
  exact h

theorem importOk_delete (s : Store) (shopId : Nat) (h : ImportOk s) :
    ImportOk (deleteShopListings s shopId) := by
  obtain ⟨h1, h2, h3, h4, h5, h6⟩ := h
  refine ⟨h1, h2, ?_, h4, h5, ?_⟩
  · intro x hx
    exact h3 x (List.mem_filter.mp hx).1
  · intro pp hpp
    exact h6 pp (List.mem_filter.mp hpp).1

theorem importOk_append_product (s : Store) (nm : String) (cat : Nat) (h : ImportOk s) :
    ImportOk { s with
      products := s.products ++ [{ id := s.nextId, name := nm, categoryId := cat }],
      nextId := s.nextId + 1 } := by
  obtain ⟨h1, h2, h3, h4, h5, h6⟩ := h
  unfold ImportOk
  dsimp only
  refine ⟨?_, ?_, ?_, ?_, h5, ?_⟩
  · intro p hp
    rcases List.mem_append.mp hp with hp | hp
    · have := h1 p hp
      omega
    · have hp2 : p = { id := s.nextId, name := nm, categoryId := cat } := by simpa using hp
      rw [hp2]
      exact Nat.lt_succ_self _
  · rw [List.pairwise_append]
    refine ⟨h2, by simp, ?_⟩
    intro a ha b hb
    have hb2 : b = ({ id := s.nextId, name := nm, categoryId := cat } : ProductRow) := by
      simpa using hb
    have halt := h1 a ha
    rw [hb2]
    exact Nat.ne_of_lt halt
  · intro x hx
    have := h3 x hx
    omega
  · intro pr hpr
    have := h4 pr hpr
    omega
  · intro pp hpp
    have := h6 pp hpp
    omega

theorem importOk_append_info (s : Store) (pid shopId eid : Nat) (md : String) (q : Nat)
    (pr rrc : Rat) (h : ImportOk s) :
    ImportOk { s with
      productInfos := s.productInfos ++
        [{ id := s.nextId, productId := pid, shopId := shopId, external_id := eid,
           model := md, quantity := q, price := pr, price_rrc := rrc }],
      nextId := s.nextId + 1 } := by
  obtain ⟨h1, h2, h3, h4, h5, h6⟩ := h
  unfold ImportOk
  dsimp only
  refine ⟨?_, h2, ?_, ?_, h5, ?_⟩
  · intro p hp
    have := h1 p hp
    omega
  · intro x hx
    rcases List.mem_append.mp hx with hx | hx
    · have := h3 x hx
      omega
    · have hx2 : x = { id := s.nextId, productId := pid, shopId := shopId, external_id := eid, model := md, quantity := q, price := pr, price_rrc := rrc } := by simpa using hx
      rw [hx2]
      exact Nat.lt_succ_self _
  · intro p hp
    have := h4 p hp
    omega
  · intro pp hpp
    have := h6 pp hpp
    omega

theorem importOk_createParams : ∀ (ps : List (String × String)) (s : Store) (infoId : Nat)
    (e? : Option ImpErr) (s1 : Store),
    createParams s infoId ps = (e?, s1) → infoId < s.nextId → ImportOk s → ImportOk s1 := by
  intro ps
  induction ps with
  | nil =>
    intro s infoId e? s1 h hinfo hok
    rcases h with ⟨-, -⟩
    exact hok
  | cons p rest ih =>
    intro s infoId e? s1 h hinfo hok
    rcases p with ⟨nm, v⟩
    unfold createParams at h
    rcases hr : resolveParameter s nm with ⟨er?, sr, prId⟩
    rw [hr] at h
    have hrok : ImportOk sr ∧ infoId < sr.nextId := by
      unfold resolveParameter at hr
      rcases hm : paramMatches s.parameters nm with - | ⟨q, - | ⟨q2, t⟩⟩ <;> rw [hm] at hr
      · rcases hr with ⟨-, -⟩
        obtain ⟨h1, h2, h3, h4, h5, h6⟩ := hok
        constructor
        · unfold ImportOk
          dsimp only
          refine ⟨?_, h2, ?_, ?_, ?_, ?_⟩
          · intro x hx
            have := h1 x hx
            omega
          · intro x hx
            have := h3 x hx
            omega
          · intro x hx
            rcases List.mem_append.mp hx with hx | hx
            · have := h4 x hx
              omega
            · have hx2 : x = ({ id := s.nextId, name := nm } : ParameterRow) := by simpa using hx
              rw [hx2]
              exact Nat.lt_succ_self _
          · rw [List.pairwise_append]
            refine ⟨h5, by simp, ?_⟩
            intro a ha b hb
            have hb2 : b = ({ id := s.nextId, name := nm } : ParameterRow) := by simpa using hb
            have halt := h4 a ha
            rw [hb2]
            exact Nat.ne_of_lt halt
          · intro pp hpp
            have := h6 pp hpp
            omega
        · dsimp only
          omega
      · rcases hr with ⟨-, -⟩
        exact ⟨hok, hinfo⟩
      · rcases hr with ⟨-, -⟩
        exact ⟨hok, hinfo⟩
    cases er? with
    | some e =>
      rcases h with ⟨-, -⟩
      exact hrok.1
    | none =>
      dsimp only at h
      split at h
      · rcases h with ⟨-, -⟩
        exact hrok.1
      · refine ih _ _ _ _ h (by exact Nat.lt_succ_of_lt hrok.2) ?_
        obtain ⟨h1, h2, h3, h4, h5, h6⟩ := hrok.1
        unfold ImportOk
        dsimp only
        refine ⟨?_, h2, ?_, ?_, h5, ?_⟩
        · intro x hx
          have := h1 x hx
          omega
        · intro x hx
          have := h3 x hx
          omega
        · intro x hx
          have := h4 x hx
          omega
        · intro pp hpp
          rcases List.mem_append.mp hpp with hpp | hpp
          · have := h6 pp hpp
            omega
          · have hpp2 : pp = { id := sr.nextId, productInfoId := infoId, parameterId := prId, value := v } := by
              simpa using hpp
            rw [hpp2]
            exact Nat.lt_succ_of_lt hrok.2

theorem resolveProduct_params (s : Store) (g : GoodEntry) :
    ((resolveProduct s g).2.1).parameters = s.parameters ∧
    ((resolveProduct s g).2.1).productParameters = s.productParameters := by
  unfold resolveProduct
  split
  · split <;> exact ⟨rfl, rfl⟩
  · exact ⟨rfl, rfl⟩
  · exact ⟨rfl, rfl⟩

theorem resolveParameter_ok_inv (s : Store) (nm : String) (s1 : Store) (prId : Nat)
    (h : resolveParameter s nm = (none, s1, prId)) :
    (paramMatches s.parameters nm = [] ∧ prId = s.nextId ∧
      s1 = { s with parameters := s.parameters ++ [{ id := s.nextId, name := nm }],
                    nextId := s.nextId + 1 }) ∨
    (∃ r, paramMatches s.parameters nm = [r] ∧ prId = r.id ∧ s1 = s) := by
  unfold resolveParameter at h
  rcases hm : paramMatches s.parameters nm with - | ⟨r, - | ⟨r2, t⟩⟩ <;> rw [hm] at h
  · rcases h with ⟨-, -⟩
    exact Or.inl ⟨rfl, rfl, rfl⟩
  · rcases h with ⟨-, -⟩
    exact Or.inr ⟨r, rfl, rfl, rfl⟩
  · cases h

theorem processGood_ok_inv2 (s : Store) (shopId : Nat) (g : GoodEntry) (s1 : Store)
    (h : processGood s shopId g = (none, s1)) :
    ∃ sA pid, resolveProduct s g = (none, sA, pid) ∧
      sA.productInfos.any (fun y => decide (y.productId = pid ∧ y.shopId = shopId)) = false ∧
      createParams
        { sA with
          productInfos := sA.productInfos ++
            [{ id := sA.nextId, productId := pid, shopId := shopId, external_id := g.id,
               model := g.model, quantity := g.quantity, price := g.price,
               price_rrc := g.price_rrc }],
          nextId := sA.nextId + 1 } sA.nextId g.parameters = (none, s1) := by
  unfold processGood at h
  rcases hres : resolveProduct s g with ⟨e?, sA, pid⟩
  rw [hres] at h
  cases e? with
  | some e => cases h
  | none =>
    dsimp only at h
    by_cases hany : sA.productInfos.any
        (fun y => decide (y.productId = pid ∧ y.shopId = shopId)) = true
    · rw [if_pos hany] at h
      cases h
    · rw [if_neg hany] at h
      rcases hcp : createParams
          { sA with
            productInfos := sA.productInfos ++
              [{ id := sA.nextId, productId := pid, shopId := shopId, external_id := g.id,
                 model := g.model, quantity := g.quantity, price := g.price,
                 price_rrc := g.price_rrc }],
            nextId := sA.nextId + 1 } sA.nextId g.parameters with ⟨e2?, s2⟩
      rw [hcp] at h
      cases e2? with
      | some e2 => cases h
      | none =>
        rcases h with ⟨-⟩
        exact ⟨sA, pid, rfl, Bool.not_eq_true _ ▸ Bool.of_not_eq_true hany, hcp⟩

theorem processGood_prodMatches_stable (s : Store) (shopId : Nat) (g : GoodEntry) (s1 : Store)
    (h : processGood s shopId g = (none, s1)) (nm : String) (ct : Nat)
    (hne : prodMatches s.products nm ct ≠ []) :
    prodMatches s1.products nm ct = prodMatches s.products nm ct := by
  rcases processGood_ok_inv s shopId g s1 h with ⟨sA, pid, hres, -, hprod, -⟩
  rcases resolveProduct_ok_inv s g sA pid hres with ⟨hnil, -, hsA⟩ | ⟨q, -, -, hsA⟩
  · rw [hprod, hsA]
    dsimp only
    unfold prodMatches at hnil hne ⊢
    rw [List.filter_append]
    have hnew : List.filter (fun p => decide (p.name = nm ∧ p.categoryId = ct))
        [({ id := s.nextId, name := g.name, categoryId := g.category } : ProductRow)] = [] := by
      rw [List.filter_eq_nil_iff]
      intro a ha
      have ha2 : a = ({ id := s.nextId, name := g.name, categoryId := g.category } : ProductRow) := by
        simpa using ha
      rw [ha2]
      simp only [decide_eq_true_eq]
      rintro ⟨hh1, hh2⟩
      apply hne
      rw [← hh1, ← hh2]
      exact hnil
    rw [hnew, List.append_nil]
  · rw [hprod, hsA]

theorem processGoods_prodMatches_stable : ∀ (gs : List GoodEntry) (s : Store) (shopId : Nat)
    (B : Store), processGoods s shopId gs = (none, B) →
    ∀ nm ct, prodMatches s.products nm ct ≠ [] →
      prodMatches B.products nm ct = prodMatches s.products nm ct := by
  intro gs
  induction gs with
  | nil =>
    intro s shopId B h nm ct hne
    rcases h with ⟨-⟩
    rfl
  | cons g rest ih =>
    intro s shopId B h nm ct hne
    unfold processGoods at h
    rcases hp : processGood s shopId g with ⟨e?, s1⟩
    rw [hp] at h
    cases e? with
    | some e => cases h
    | none =>
      dsimp only at h
      have hstep := processGood_prodMatches_stable s shopId g s1 hp nm ct hne
      rw [ih s1 shopId B h nm ct (by rw [hstep]; exact hne), hstep]

theorem resolveParameter_paramMatches_stable (s : Store) (nm0 : String) (s1 : Store)
    (prId : Nat) (h : resolveParameter s nm0 = (none, s1, prId)) (nm : String)
    (hne : paramMatches s.parameters nm ≠ []) :
    paramMatches s1.parameters nm = paramMatches s.parameters nm := by
  rcases resolveParameter_ok_inv s nm0 s1 prId h with ⟨hnil, -, hs1⟩ | ⟨r, -, -, hs1⟩
  · rw [hs1]
    dsimp only
    unfold paramMatches at hnil hne ⊢
    rw [List.filter_append]
    have hnew : List.filter (fun p => decide (p.name = nm))
        [({ id := s.nextId, name := nm0 } : ParameterRow)] = [] := by
      rw [List.filter_eq_nil_iff]
      intro a ha
      have ha2 : a = ({ id := s.nextId, name := nm0 } : ParameterRow) := by simpa using ha
      rw [ha2]
      simp only [decide_eq_true_eq]
      intro hh
      apply hne
      rw [← hh]
      exact hnil
    rw [hnew, List.append_nil]
  · rw [hs1]

theorem createParams_paramMatches_stable : ∀ (ps : List (String × String)) (s : Store)
    (infoId : Nat) (s1 : Store), createParams s infoId ps = (none, s1) →
    ∀ nm, paramMatches s.parameters nm ≠ [] →
      paramMatches s1.parameters nm = paramMatches s.parameters nm := by
  intro ps
  induction ps with
  | nil =>
    intro s infoId s1 h nm hne
    rcases h with ⟨-⟩
    rfl
  | cons p rest ih =>
    intro s infoId s1 h nm hne
    rcases p with ⟨nm0, v⟩
    unfold createParams at h
    rcases hr : resolveParameter s nm0 with ⟨er?, sr, prId⟩
    rw [hr] at h
    cases er? with
    | some e => cases h
    | none =>
      dsimp only at h
      split at h
      · cases h
      · have hstep := resolveParameter_paramMatches_stable s nm0 sr prId hr nm hne
        have hne2 : paramMatches sr.parameters nm ≠ [] := by
          rw [hstep]
          exact hne
        have hih := ih _ _ _ h nm (by exact hne2)
        rw [hih]
        exact hstep

theorem processGood_paramMatches_stable (s : Store) (shopId : Nat) (g : GoodEntry) (s1 : Store)
    (h : processGood s shopId g = (none, s1)) (nm : String)
    (hne : paramMatches s.parameters nm ≠ []) :
    paramMatches s1.parameters nm = paramMatches s.parameters nm := by
  rcases processGood_ok_inv2 s shopId g s1 h with ⟨sA, pid, hres, -, hcp⟩
  have hApar := (resolveProduct_params s g).1
  rw [hres] at hApar
  dsimp only at hApar
  have hne2 : paramMatches sA.parameters nm ≠ [] := by
    rw [hApar]
    exact hne
  have hcs := createParams_paramMatches_stable _ _ _ _ hcp nm (by exact hne2)
  rw [hcs]
  exact show paramMatches sA.parameters nm = paramMatches s.parameters nm by rw [hApar]

theorem processGoods_paramMatches_stable : ∀ (gs : List GoodEntry) (s : Store) (shopId : Nat)
    (B : Store), processGoods s shopId gs = (none, B) →
    ∀ nm, paramMatches s.parameters nm ≠ [] →
      paramMatches B.parameters nm = paramMatches s.parameters nm := by
  intro gs
  induction gs with
  | nil =>
    intro s shopId B h nm hne
    rcases h with ⟨-⟩
    rfl
  | cons g rest ih =>
    intro s shopId B h nm hne
    unfold processGoods at h
    rcases hp : processGood s shopId g with ⟨e?, s1⟩
    rw [hp] at h
    cases e? with
    | some e => cases h
    | none =>
      dsimp only at h
      have hstep := processGood_paramMatches_stable s shopId g s1 hp nm hne
      rw [ih s1 shopId B h nm (by rw [hstep]; exact hne), hstep]

/-- The `ProductParameter` parameter-ids already attached to one listing row
(the set the unique (product_info, parameter) constraint checks against). -/
def ppIds (s : Store) (infoId : Nat) : List Nat :=
  (s.productParameters.filter fun pp => decide (pp.productInfoId = infoId)).map (·.parameterId)

theorem any_pp_iff (s : Store) (infoId prId : Nat) :
    (s.productParameters.any fun pp =>
      decide (pp.productInfoId = infoId ∧ pp.parameterId = prId)) = true ↔
    prId ∈ ppIds s infoId := by
  constructor
  · intro h
    rcases List.any_eq_true.mp h with ⟨pp, hpp, hp⟩
    rcases of_decide_eq_true hp with ⟨h1, h2⟩
    unfold ppIds
    exact List.mem_map.mpr ⟨pp, List.mem_filter.mpr ⟨hpp, by simp [h1]⟩, h2⟩
  · intro h
    unfold ppIds at h
    rcases List.mem_map.mp h with ⟨pp, hpp, h2⟩
    rcases List.mem_filter.mp hpp with ⟨hmem, h1⟩
    exact List.any_eq_true.mpr ⟨pp, hmem, by simp [of_decide_eq_true h1, h2]⟩

theorem ppIds_append_pp (s : Store) (infoId : Nat) (row : ProductParameterRow)
    (hrow : row.productInfoId = infoId) :
    ppIds { s with productParameters := s.productParameters ++ [row],
                   nextId := s.nextId + 1 } infoId =
      ppIds s infoId ++ [row.parameterId] := by
  unfold ppIds
  dsimp only
  rw [List.filter_append]
  have hone : List.filter (fun pp => decide (pp.productInfoId = infoId)) [row] = [row] := by
    simp [hrow]
  rw [hone, List.map_append]
  rfl

theorem ppIds_eq_nil (s : Store) (n : Nat)
    (h : ∀ pp ∈ s.productParameters, pp.productInfoId ≠ n) : ppIds s n = [] := by
  unfold ppIds
  rw [List.map_eq_nil_iff, List.filter_eq_nil_iff]
  intro pp hpp
  simp [h pp hpp]

/-- Replaying one goods entry's parameters loop on a second run: the
reference store `u2` resolves every name the first run used to the same
parameter row (its table is the first run's final one), and its listing row
is equally fresh, so the loop succeeds, creates no parameter rows, and
attaches the same parameter ids. -/
theorem createParams_sim : ∀ (ps : List (String × String)) (u u1 u2 : Store)
    (infoId infoId2 : Nat),
    createParams u infoId ps = (none, u1) →
    (∀ nm, paramMatches u1.parameters nm ≠ [] →
      paramMatches u2.parameters nm = paramMatches u1.parameters nm) →
    ppIds u infoId = ppIds u2 infoId2 →
    ∃ u3, createParams u2 infoId2 ps = (none, u3) ∧ u3.parameters = u2.parameters := by
  intro ps
  induction ps with
  | nil =>
    intro u u1 u2 infoId infoId2 h hstab hinv
    exact ⟨u2, rfl, rfl⟩
  | cons p rest ih =>
    intro u u1 u2 infoId infoId2 h hstab hinv
    rcases p with ⟨nm, v⟩
    unfold createParams at h
    rcases hr : resolveParameter u nm with ⟨er?, ur, r1⟩
    rw [hr] at h
    cases er? with
    | some e => cases h
    | none =>
      dsimp only at h
      by_cases hchk : (ur.productParameters.any fun pp =>
          decide (pp.productInfoId = infoId ∧ pp.parameterId = r1)) = true
      · rw [if_pos hchk] at h
        cases h
      · rw [if_neg hchk] at h
        have hppur : ur.productParameters = u.productParameters := by
          rcases resolveParameter_ok_inv u nm ur r1 hr with ⟨-, -, hur⟩ | ⟨r, -, -, hur⟩
          · rw [hur]
          · rw [hur]
        have hone : ∃ rr : ParameterRow, paramMatches ur.parameters nm = [rr] ∧ r1 = rr.id := by
          rcases resolveParameter_ok_inv u nm ur r1 hr with ⟨hnil, hpid, hur⟩ | ⟨r, hm, hpid, hur⟩
          · refine ⟨{ id := u.nextId, name := nm }, ?_, hpid⟩
            rw [hur]
            dsimp only
            unfold paramMatches at hnil ⊢
            rw [List.filter_append, hnil]
            simp
          · refine ⟨r, ?_, hpid⟩
            rw [hur]
            exact hm
        rcases hone with ⟨rr, hrr, hr1⟩
        have hneq : paramMatches ur.parameters nm ≠ [] := by
          rw [hrr]
          simp
        have hstep := createParams_paramMatches_stable _ _ _ _ h nm (by exact hneq)
        have hu1 : paramMatches u1.parameters nm = [rr] := by
          rw [hstep]
          exact hrr
        have hu2 : paramMatches u2.parameters nm = [rr] := by
          rw [hstab nm (by rw [hu1]; simp)]
          exact hu1
        have hru2 : resolveParameter u2 nm = (none, u2, rr.id) := by
          unfold resolveParameter
          rw [hu2]
        have hnotmem : rr.id ∉ ppIds u2 infoId2 := by
          rw [← hinv]
          intro hmem
          apply hchk
          have hx := (any_pp_iff u infoId r1).mpr (by rw [hr1]; exact hmem)
          rw [← hppur] at hx
          exact hx
        have hchk2 : ¬ ((u2.productParameters.any fun pp =>
            decide (pp.productInfoId = infoId2 ∧ pp.parameterId = rr.id)) = true) := by
          intro hx
          exact hnotmem ((any_pp_iff u2 infoId2 rr.id).mp hx)
        unfold createParams
        rw [hru2]
        dsimp only
        rw [if_neg hchk2]
        have hinv2 : ppIds
            { ur with
              productParameters := ur.productParameters ++
                [{ id := ur.nextId, productInfoId := infoId, parameterId := r1, value := v }],
              nextId := ur.nextId + 1 } infoId =
            ppIds
              { u2 with
                productParameters := u2.productParameters ++
                  [{ id := u2.nextId, productInfoId := infoId2, parameterId := rr.id, value := v }],
                nextId := u2.nextId + 1 } infoId2 := by
          rw [ppIds_append_pp _ _ _ rfl, ppIds_append_pp _ _ _ rfl]
          have hur2 : ppIds ur infoId = ppIds u infoId := by
            unfold ppIds
            rw [hppur]
          rw [hur2, hinv, hr1]
        rcases ih _ u1 _ infoId infoId2 h
            (by exact fun nm2 hne2 => hstab nm2 hne2) hinv2 with ⟨u3, hcp3, hpar3⟩
        refine ⟨u3, hcp3, ?_⟩
        rw [hpar3]

theorem importOk_processGood (s : Store) (shopId : Nat) (g : GoodEntry) (s1 : Store)
    (h : processGood s shopId g = (none, s1)) (hok : ImportOk s) : ImportOk s1 := by
  rcases processGood_ok_inv2 s shopId g s1 h with ⟨sA, pid, hres, hany, hcp⟩
  have hokA : ImportOk sA := by
    rcases resolveProduct_ok_inv s g sA pid hres with ⟨-, -, hsA⟩ | ⟨q, -, -, hsA⟩
    · rw [hsA]
      exact importOk_append_product s g.name g.category hok
    · rw [hsA]
      exact hok
  have hokB := importOk_append_info sA pid shopId g.id g.model g.quantity g.price
    g.price_rrc hokA
  exact importOk_createParams _ _ _ _ _ hcp (by exact Nat.lt_succ_self _) hokB

theorem importOk_processGoods : ∀ (gs : List GoodEntry) (s : Store) (shopId : Nat) (B : Store),
    processGoods s shopId gs = (none, B) → ImportOk s → ImportOk B := by
  intro gs
  induction gs with
  | nil =>
    intro s shopId B h hok
    rcases h with ⟨-⟩
    exact hok
  | cons g rest ih =>
    intro s shopId B h hok
    unfold processGoods at h
    rcases hp : processGood s shopId g with ⟨e?, s1⟩
    rw [hp] at h
    cases e? with
    | some e => cases h
    | none =>
      dsimp only at h
      exact ih s1 shopId B h (importOk_processGood s shopId g s1 hp hok)

theorem resolveProduct_nextId_le (s : Store) (g : GoodEntry) (sA : Store) (pid : Nat)
    (h : resolveProduct s g = (none, sA, pid)) : s.nextId ≤ sA.nextId := by
  rcases resolveProduct_ok_inv s g sA pid h with ⟨-, -, hsA⟩ | ⟨q, -, -, hsA⟩
  · rw [hsA]
    exact Nat.le_succ _
  · rw [hsA]

theorem shopListingsProj_congr (s t : Store) (h : s.productInfos = t.productInfos)
    (shopId : Nat) : shopListingsProj s shopId = shopListingsProj t shopId := by
  unfold shopListingsProj
  rw [h]

theorem any_pair_iff (s : Store) (pid shopId : Nat) :
    (s.productInfos.any fun y => decide (y.productId = pid ∧ y.shopId = shopId)) = true ↔
      pid ∈ (shopListingsProj s shopId).map (fun pj => pj.productId) := by
  unfold shopListingsProj
  rw [List.map_map]
  constructor
  · intro h
    rcases List.any_eq_true.mp h with ⟨x, hx, hp⟩
    rcases of_decide_eq_true hp with ⟨h1, h2⟩
    refine List.mem_map.mpr ⟨x, List.mem_filter.mpr ⟨hx, by simp [h2]⟩, ?_⟩
    simp [projInfo, h1]
  · intro h
    rcases List.mem_map.mp h with ⟨x, hx, h1⟩
    rcases List.mem_filter.mp hx with ⟨hmem, h2⟩
    refine List.any_eq_true.mpr ⟨x, hmem, ?_⟩
    have hx1 : x.productId = pid := h1
    simp [hx1, of_decide_eq_true h2]

theorem shopListingsProj_append_row (s : Store) (shopId : Nat) (row : ProductInfoRow)
    (hr : row.shopId = shopId) :
    shopListingsProj { s with productInfos := s.productInfos ++ [row],
                              nextId := s.nextId + 1 } shopId =
      shopListingsProj s shopId ++ [projInfo row] := by
  unfold shopListingsProj
  dsimp only
  rw [List.filter_append]
  have hone : List.filter (fun x => decide (x.shopId = shopId)) [row] = [row] := by
    simp [hr]
  rw [hone, List.map_append]
  rfl

/-- Replaying one goods entry on a second run whose product and parameter
tables are the first run's final ones and whose shop listings mirror the
first run's: the entry resolves to the same product, creates the projected
same listing, and succeeds. -/
theorem processGood_sim (a a1 b : Store) (shopId : Nat) (g : GoodEntry)
    (h : processGood a shopId g = (none, a1))
    (hprodstab : ∀ nm ct, prodMatches a1.products nm ct ≠ [] →
        prodMatches b.products nm ct = prodMatches a1.products nm ct)
    (hparstab : ∀ nm, paramMatches a1.parameters nm ≠ [] →
        paramMatches b.parameters nm = paramMatches a1.parameters nm)
    (hproj : shopListingsProj a shopId = shopListingsProj b shopId)
    (hokA : ImportOk a) (hokB : ImportOk b) :
    ∃ b1, processGood b shopId g = (none, b1) ∧
      shopListingsProj b1 shopId = shopListingsProj a1 shopId ∧
      b1.products = b.products ∧ b1.parameters = b.parameters := by
  rcases processGood_ok_inv2 a shopId g a1 h with ⟨aA, pid, hres, hany, hcp⟩
  have haAinfos : aA.productInfos = a.productInfos := by
    rcases resolveProduct_ok_inv a g aA pid hres with ⟨-, -, hsA⟩ | ⟨q, -, -, hsA⟩ <;> rw [hsA]
  have haApars : aA.parameters = a.parameters := by
    have := (resolveProduct_params a g).1
    rw [hres] at this
    exact this
  have haApp : aA.productParameters = a.productParameters := by
    have := (resolveProduct_params a g).2
    rw [hres] at this
    exact this
  have ha1p : a1.products = aA.products := by
    have hfr := (createParams_frame g.parameters
      { aA with
        productInfos := aA.productInfos ++
          [{ id := aA.nextId, productId := pid, shopId := shopId, external_id := g.id,
             model := g.model, quantity := g.quantity, price := g.price,
             price_rrc := g.price_rrc }],
        nextId := aA.nextId + 1 } aA.nextId).1
    rw [hcp] at hfr
    exact hfr
  have ha1i : a1.productInfos = aA.productInfos ++
      [{ id := aA.nextId, productId := pid, shopId := shopId, external_id := g.id,
         model := g.model, quantity := g.quantity, price := g.price,
         price_rrc := g.price_rrc }] := by
    have hfr := (createParams_frame g.parameters
      { aA with
        productInfos := aA.productInfos ++
          [{ id := aA.nextId, productId := pid, shopId := shopId, external_id := g.id,
             model := g.model, quantity := g.quantity, price := g.price,
             price_rrc := g.price_rrc }],
        nextId := aA.nextId + 1 } aA.nextId).2
    rw [hcp] at hfr
    exact hfr
  have hmatch_a1 : ∃ p : ProductRow,
      prodMatches a1.products g.name g.category = [p] ∧ p.id = pid := by
    rcases resolveProduct_ok_inv a g aA pid hres with ⟨hnil, hpid, hsA⟩ | ⟨q, hm, hpid, hsA⟩
    · refine ⟨{ id := a.nextId, name := g.name, categoryId := g.category }, ?_, hpid.symm⟩
      rw [ha1p, hsA]
      dsimp only
      unfold prodMatches at hnil ⊢
      rw [List.filter_append, hnil]
      simp
    · refine ⟨q, ?_, hpid.symm⟩
      rw [ha1p, hsA]
      exact hm
  rcases hmatch_a1 with ⟨p, hma1, hpe⟩
  have hmatch_b : prodMatches b.products g.name g.category = [p] := by
    rw [hprodstab g.name g.category (by rw [hma1]; simp)]
    exact hma1
  have hresb : resolveProduct b g = (none, b, p.id) := by
    unfold resolveProduct
    rw [hmatch_b]
  have hanyA : ¬ ((a.productInfos.any fun y =>
      decide (y.productId = p.id ∧ y.shopId = shopId)) = true) := by
    rw [hpe]
    rw [haAinfos] at hany
    intro hx
    rw [hx] at hany
    cases hany
  have hchkb : ¬ ((b.productInfos.any fun y =>
      decide (y.productId = p.id ∧ y.shopId = shopId)) = true) := by
    intro hx
    have hmem := (any_pair_iff b p.id shopId).mp hx
    rw [← hproj] at hmem
    exact hanyA ((any_pair_iff a p.id shopId).mpr hmem)
  have hfreshA : ppIds
      { aA with
        productInfos := aA.productInfos ++
          [{ id := aA.nextId, productId := pid, shopId := shopId, external_id := g.id,
             model := g.model, quantity := g.quantity, price := g.price,
             price_rrc := g.price_rrc }],
        nextId := aA.nextId + 1 } aA.nextId = [] := by
    apply ppIds_eq_nil
    intro pp hpp
    have hpp2 : pp ∈ a.productParameters := by
      rw [← haApp]
      exact hpp
    have hlt := hokA.2.2.2.2.2 pp hpp2
    have hle := resolveProduct_nextId_le a g aA pid hres
    omega
  have hfreshB : ppIds
      { b with
        productInfos := b.productInfos ++
          [{ id := b.nextId, productId := p.id, shopId := shopId, external_id := g.id,
             model := g.model, quantity := g.quantity, price := g.price,
             price_rrc := g.price_rrc }],
        nextId := b.nextId + 1 } b.nextId = [] := by
    apply ppIds_eq_nil
    intro pp hpp
    exact Nat.ne_of_lt (hokB.2.2.2.2.2 pp hpp)
  rcases createParams_sim g.parameters
      { aA with
        productInfos := aA.productInfos ++
          [{ id := aA.nextId, productId := pid, shopId := shopId, external_id := g.id,
             model := g.model, quantity := g.quantity, price := g.price,
             price_rrc := g.price_rrc }],
        nextId := aA.nextId + 1 } a1
      { b with
        productInfos := b.productInfos ++
          [{ id := b.nextId, productId := p.id, shopId := shopId, external_id := g.id,
             model := g.model, quantity := g.quantity, price := g.price,
             price_rrc := g.price_rrc }],
        nextId := b.nextId + 1 } aA.nextId b.nextId hcp
      (by exact fun nm hne => hparstab nm hne)
      (by rw [hfreshA, hfreshB]) with ⟨b1, hcpb, hparb⟩
  have hb1p : b1.products = b.products := by
    have hfr := (createParams_frame g.parameters
      { b with
        productInfos := b.productInfos ++
          [{ id := b.nextId, productId := p.id, shopId := shopId, external_id := g.id,
             model := g.model, quantity := g.quantity, price := g.price,
             price_rrc := g.price_rrc }],
        nextId := b.nextId + 1 } b.nextId).1
    rw [hcpb] at hfr
    exact hfr
  have hb1i : b1.productInfos = b.productInfos ++
      [{ id := b.nextId, productId := p.id, shopId := shopId, external_id := g.id,
         model := g.model, quantity := g.quantity, price := g.price,
         price_rrc := g.price_rrc }] := by
    have hfr := (createParams_frame g.parameters
      { b with
        productInfos := b.productInfos ++
          [{ id := b.nextId, productId := p.id, shopId := shopId, external_id := g.id,
             model := g.model, quantity := g.quantity, price := g.price,
             price_rrc := g.price_rrc }],
        nextId := b.nextId + 1 } b.nextId).2
    rw [hcpb] at hfr
    exact hfr
  refine ⟨b1, ?_, ?_, hb1p, by rw [hparb]⟩
  · unfold processGood
    rw [hresb]
    dsimp only
    rw [if_neg hchkb]
    exact hcpb
  · have hpa1 : shopListingsProj a1 shopId = shopListingsProj a shopId ++
        [projInfo { id := aA.nextId, productId := pid, shopId := shopId, external_id := g.id,
                    model := g.model, quantity := g.quantity, price := g.price,
                    price_rrc := g.price_rrc }] := by
      have hstep := shopListingsProj_append_row aA shopId
        { id := aA.nextId, productId := pid, shopId := shopId, external_id := g.id,
          model := g.model, quantity := g.quantity, price := g.price,
          price_rrc := g.price_rrc } rfl
      rw [shopListingsProj_congr a1
        { aA with
          productInfos := aA.productInfos ++
            [{ id := aA.nextId, productId := pid, shopId := shopId, external_id := g.id,
               model := g.model, quantity := g.quantity, price := g.price,
               price_rrc := g.price_rrc }],
          nextId := aA.nextId + 1 } (by rw [ha1i]) shopId, hstep,
        shopListingsProj_congr aA a haAinfos shopId]
    have hpb1 : shopListingsProj b1 shopId = shopListingsProj b shopId ++
        [projInfo { id := b.nextId, productId := p.id, shopId := shopId, external_id := g.id,
                    model := g.model, quantity := g.quantity, price := g.price,
                    price_rrc := g.price_rrc }] := by
      have hstep := shopListingsProj_append_row b shopId
        { id := b.nextId, productId := p.id, shopId := shopId, external_id := g.id,
          model := g.model, quantity := g.quantity, price := g.price,
          price_rrc := g.price_rrc } rfl
      rw [shopListingsProj_congr b1
        { b with
          productInfos := b.productInfos ++
            [{ id := b.nextId, productId := p.id, shopId := shopId, external_id := g.id,
               model := g.model, quantity := g.quantity, price := g.price,
               price_rrc := g.price_rrc }],
          nextId := b.nextId + 1 } (by rw [hb1i]) shopId, hstep]
    rw [hpa1, hpb1, ← hproj]
    congr 2
    unfold projInfo
    dsimp only
    rw [hpe]

theorem processGoods_sim : ∀ (gs : List GoodEntry) (a a1 b : Store) (shopId : Nat),
    processGoods a shopId gs = (none, a1) →
    (∀ nm ct, prodMatches a1.products nm ct ≠ [] →
        prodMatches b.products nm ct = prodMatches a1.products nm ct) →
    (∀ nm, paramMatches a1.parameters nm ≠ [] →
        paramMatches b.parameters nm = paramMatches a1.parameters nm) →
    shopListingsProj a shopId = shopListingsProj b shopId →
    ImportOk a → ImportOk b →
    ∃ b1, processGoods b shopId gs = (none, b1) ∧
      shopListingsProj b1 shopId = shopListingsProj a1 shopId ∧
      b1.products = b.products ∧ b1.parameters = b.parameters := by
  intro gs
  induction gs with
  | nil =>
    intro a a1 b shopId h hps hpars hproj hokA hokB
    rcases h with ⟨-⟩
    exact ⟨b, rfl, hproj.symm, rfl, rfl⟩
  | cons g rest ih =>
    intro a a1 b shopId h hps hpars hproj hokA hokB
    unfold processGoods at h
    rcases hp : processGood a shopId g with ⟨e?, s1⟩
    rw [hp] at h
    cases e? with
    | some e => cases h
    | none =>
      dsimp only at h
      have hps1 : ∀ nm ct, prodMatches s1.products nm ct ≠ [] →
          prodMatches b.products nm ct = prodMatches s1.products nm ct := by
        intro nm ct hne
        have hstep := processGoods_prodMatches_stable rest s1 shopId a1 h nm ct hne
        rw [hps nm ct (by rw [hstep]; exact hne), hstep]
      have hpars1 : ∀ nm, paramMatches s1.parameters nm ≠ [] →
          paramMatches b.parameters nm = paramMatches s1.parameters nm := by
        intro nm hne
        have hstep := processGoods_paramMatches_stable rest s1 shopId a1 h nm hne
        rw [hpars nm (by rw [hstep]; exact hne), hstep]
      rcases processGood_sim a s1 b shopId g hp hps1 hpars1 hproj hokA hokB with
        ⟨bs1, hgb, hprojb, hbp, hbpar⟩
      have hokA1 := importOk_processGood a shopId g s1 hp hokA
      have hokB1 := importOk_processGood b shopId g bs1 hgb hokB
      have hps2 : ∀ nm ct, prodMatches a1.products nm ct ≠ [] →
          prodMatches bs1.products nm ct = prodMatches a1.products nm ct := by
        intro nm ct hne
        rw [hbp]
        exact hps nm ct hne
      have hpars2 : ∀ nm, paramMatches a1.parameters nm ≠ [] →
          paramMatches bs1.parameters nm = paramMatches a1.parameters nm := by
        intro nm hne
        rw [hbpar]
        exact hpars nm hne
      rcases ih s1 a1 bs1 shopId h hps2 hpars2 hprojb.symm hokA1 hokB1 with
        ⟨b1, hrest, hproj1, hb1p, hb1par⟩
      refine ⟨b1, ?_, hproj1, by rw [hb1p, hbp], by rw [hb1par, hbpar]⟩
      unfold processGoods
      rw [hgb]
      dsimp only
      exact hrest

/-- C7 (idempotent re-import): re-running `do_import` with the same feed for
the same shop leaves the shop's listing set — product, external id, model,
quantity, price and price_rrc of every listing — identical to what the first
run produced: the full-replace delete makes the second run recreate exactly
the listings of the first, and a failed run changes nothing both times. -/
theorem idempotent_reimport (st : Store) (shopId : Nat) (feed : Feed)
    (hok : ImportOk st) :
    shopListingsProj (do_import (do_import st shopId feed).2 shopId feed).2 shopId =
      shopListingsProj (do_import st shopId feed).2 shopId := by
  rcases hd : doImportCore st shopId feed with ⟨e?, st1⟩
  cases e? with
  | some e =>
    have h1 : do_import st shopId feed = (some e, st) := by
      unfold do_import
      rw [hd]
    rw [h1]
    dsimp only
    rw [h1]
  | none =>
    have h1 : do_import st shopId feed = (none, st1) := by
      unfold do_import
      rw [hd]
    rcases doImportCore_ok_inv st shopId feed st1 hd with ⟨sh, ces, gs, hsh, hces, hgs, hpg⟩
    have hshopsPG := processGoods_shops gs
      (deleteShopListings (processCategories st shopId ces) shopId) shopId
    rw [hpg] at hshopsPG
    have hshops1 : st1.shops = st.shops :=
      hshopsPG.trans
        (((deleteShopListings_frame (processCategories st shopId ces) shopId).2.2.1).trans
          ((processCategories_frame shopId ces st).2.2.2.2.1))
    have hokA1 : ImportOk (processCategories st shopId ces) :=
      importOk_of_frame st (processCategories st shopId ces) hok
        (processCategories_frame shopId ces st).1
        (processCategories_frame shopId ces st).2.1
        (processCategories_frame shopId ces st).2.2.1
        (processCategories_frame shopId ces st).2.2.2.1
        (processCategories_frame shopId ces st).2.2.2.2.2
    have hokdA : ImportOk (deleteShopListings (processCategories st shopId ces) shopId) :=
      importOk_delete (processCategories st shopId ces) shopId hokA1
    have hok1 : ImportOk st1 := importOk_processGoods gs
      (deleteShopListings (processCategories st shopId ces) shopId) shopId st1 hpg hokdA
    have hokA2 : ImportOk (processCategories st1 shopId ces) :=
      importOk_of_frame st1 (processCategories st1 shopId ces) hok1
        (processCategories_frame shopId ces st1).1
        (processCategories_frame shopId ces st1).2.1
        (processCategories_frame shopId ces st1).2.2.1
        (processCategories_frame shopId ces st1).2.2.2.1
        (processCategories_frame shopId ces st1).2.2.2.2.2
    have hokd2 : ImportOk (deleteShopListings (processCategories st1 shopId ces) shopId) :=
      importOk_delete (processCategories st1 shopId ces) shopId hokA2
    have hd2prod : (deleteShopListings (processCategories st1 shopId ces) shopId).products =
        st1.products :=
      ((deleteShopListings_frame (processCategories st1 shopId ces) shopId).1).trans
        ((processCategories_frame shopId ces st1).1)
    have hd2par : (deleteShopListings (processCategories st1 shopId ces) shopId).parameters =
        st1.parameters :=
      ((deleteShopListings_frame (processCategories st1 shopId ces) shopId).2.1).trans
        ((processCategories_frame shopId ces st1).2.2.1)
    have hprojdel : shopListingsProj
        (deleteShopListings (processCategories st shopId ces) shopId) shopId =
          shopListingsProj (deleteShopListings (processCategories st1 shopId ces) shopId)
            shopId := by
      rw [shopListingsProj_delete, shopListingsProj_delete]
    rcases processGoods_sim gs
        (deleteShopListings (processCategories st shopId ces) shopId) st1
        (deleteShopListings (processCategories st1 shopId ces) shopId) shopId hpg
        (by intro nm ct hne; rw [hd2prod])
        (by intro nm hne; rw [hd2par])
        hprojdel hokdA hokd2 with ⟨b1, hpg2, hprojb1, -, -⟩
    have hcore2 : doImportCore st1 shopId feed = (none, b1) := by
      unfold doImportCore
      rw [hshops1, hsh, hces, hgs]
      exact hpg2
    have h2 : do_import st1 shopId feed = (none, b1) := by
      unfold do_import
      rw [hcore2]
    rw [h1]
    dsimp only
    rw [h2]
    exact hprojb1

/-- Witness for `idempotent_reimport`: `baseStore` is import-well-formed, and
importing `feedGood` for shop 10 twice yields the same listing projection as
importing it once. -/
theorem idempotent_reimport_witness :
    ImportOk baseStore ∧
      shopListingsProj (do_import (do_import baseStore 10 feedGood).2 10 feedGood).2 10 =
        shopListingsProj (do_import baseStore 10 feedGood).2 10 :=
  ⟨by decide, idempotent_reimport baseStore 10 feedGood (by decide)⟩

end AutoPurch
